import Mathlib

/-!
Verification development for the ChendAI percussion-ensemble core.

The Python source is shallowly embedded: audio buffers are lists of
rationals (the mixer section uses reals, since its mastering stage applies
the real tanh), machine floats are modelled as exact rationals, the
transcendental functions used by the synthesis kernel are abstracted as an
explicit parameter record, and every ambient random draw is read from an
injectable stream, as the spec itself demands for testability.  Fallible
NumPy operations (np.zeros on a negative size, np.max on an empty array)
return Except values.
-/

/-- Python int() truncation toward zero on a rational. -/
def pyInt (q : ℚ) : ℤ := if 0 ≤ q then ⌊q⌋ else -⌊-q⌋

/-- np.zeros: raises ValueError on a negative size. -/
def npZeros (n : ℤ) : Except String (List ℚ) :=
  if n < 0 then Except.error "negative dimensions are not allowed"
  else Except.ok (List.replicate n.toNat 0)

/-- np.max (np.abs buf): raises ValueError on an empty array. -/
def npMaxAbs (l : List ℚ) : Except String ℚ :=
  if l.isEmpty then Except.error "zero-size array to reduction operation"
  else Except.ok (l.foldl (fun m x => max m |x|) 0)

/-- The float math functions used by the additive kernel (math.exp,
math.sin and the float constant math.pi), abstracted as parameters so the
kernel is a function of them. -/
structure MathFns where
  mexp : ℚ → ℚ
  msin : ℚ → ℚ
  mpi : ℚ

/-- The fixed piecewise frequency-shaping gain table of the additive kernel
(spectral_engine.synthesize_additive, the freq_factor chain). -/
def freq_factor (freq : ℚ) : ℚ :=
  if freq < 80 then 2/5
  else if freq < 180 then 6/5
  else if freq < 450 then 8/5
  else if freq < 800 then 11/10
  else if freq < 2500 then 4/5
  else if freq < 5000 then 3/5
  else 1/10

/-- Inner sample loop of the additive kernel for one spectral component:
accumulated contribution per sample index, stopping (zeros from then on)
at the first index where the combined envelope falls below 1e-5, exactly
as the source's break does (the break fires before the accumulation). -/
def overtone_contrib_aux (M : MathFns) (ampFiltered distortion transientMix omega decayCoef timeStep : ℚ) :
    ℕ → ℕ → List ℚ
  | 0, _ => []
  | Nat.succ n, tIdx =>
    let t : ℚ := (tIdx : ℚ) * timeStep
    let env := M.mexp (decayCoef * t)
    let transientEnv := M.mexp ((-500) * t) * transientMix
    let totalAmp := (env + transientEnv) * ampFiltered * distortion
    if totalAmp < 1 / 100000 then List.replicate (Nat.succ n) 0
    else M.msin (omega * t) * totalAmp ::
      overtone_contrib_aux M ampFiltered distortion transientMix omega decayCoef timeStep n (tIdx + 1)

/-- Contribution of one spectral component (frequency, amplitude,
decay-scale triple, a row of the partial bank) over a buffer of
numSamples samples, translated from the per-partial body of
synthesize_additive in spectral_engine.py. -/
def overtone_contrib (M : MathFns) (p : ℚ × ℚ × ℚ) (numSamples : ℕ) (timeStep : ℚ) : List ℚ :=
  let freq := p.1
  let amp := p.2.1
  let decayScale := p.2.2
  if amp < 1/1000 then List.replicate numSamples 0
  else
    let inharmonicStretch : ℚ := 1 + freq * (5 / 100000)
    let targetFreq := freq * inharmonicStretch
    let ampFiltered := amp * freq_factor freq
    let omega := 2 * M.mpi * targetFreq
    let decayCoef := (-5) * decayScale
    let distortion := 1 + (1/10) * |M.msin (omega * (2/1000))|
    let transientMix : ℚ := if freq > 1000 then 2/5 else 0
    overtone_contrib_aux M ampFiltered distortion transientMix omega decayCoef timeStep numSamples 0

/-- synthesize_additive (spectral_engine.py): renders the component bank
into a buffer of int(duration*sample_rate) samples, then peak-normalizes
the buffer to exactly the velocity amplitude (skipped when silent). -/
def synthesize_additive (M : MathFns) (ovs : List (ℚ × ℚ × ℚ)) (duration sampleRate velocity : ℚ) :
    Except String (List ℚ) :=
  let numZ := pyInt (duration * sampleRate)
  if numZ < 0 then Except.error "negative dimensions are not allowed"
  else
    let ns := numZ.toNat
    let timeStep := 1 / sampleRate
    let out := ovs.foldl (fun acc p => List.zipWith (· + ·) acc (overtone_contrib M p ns timeStep))
      (List.replicate ns (0 : ℚ))
    let maxVal := out.foldl (fun m x => max m |x|) 0
    Except.ok (if 0 < maxVal then out.map (fun x => x * (1 / maxVal * velocity)) else out)

/-- One stored acoustic signature of the spectral database: its category
tag and its component rows. -/
structure DBEntry where
  cat : String
  overtones : List (ℚ × ℚ × ℚ)
deriving DecidableEq

/-- NumPy broadcast of the scalar detune over the whole Nx3 partial array
(the source multiplies frequency, amplitude and decay columns alike). -/
def scale_overtones (detune : ℚ) (ovs : List (ℚ × ℚ × ℚ)) : List (ℚ × ℚ × ℚ) :=
  ovs.map (fun p => (p.1 * detune, p.2.1 * detune, p.2.2 * detune))

/-- Pad with trailing zeros or truncate a layer to the target length
(the size-fix step of get_sound). -/
def fix_size (l : List ℚ) (target : ℕ) : List ℚ :=
  if l.length < target then l ++ List.replicate (target - l.length) 0
  else if l.length > target then l.take target
  else l

/-- Shift a layer inside its fixed-length buffer by the drawn timing
offset, clamped at buffer bounds (the np.pad/slice step of get_sound). -/
def shift_layer (layer : List ℚ) (timingOffset : ℚ) (target : ℕ) : List ℚ :=
  if timingOffset > 0 then
    let off := (pyInt (|timingOffset| * 44100)).toNat
    if off > 0 then (List.replicate off (0:ℚ) ++ layer).take target else layer
  else if timingOffset < 0 then
    let off := (pyInt (|timingOffset| * 44100)).toNat
    if off > 0 then ((layer ++ List.replicate off (0:ℚ)).drop off).take target else layer
  else layer

/-- The candidate signatures of a category: the db entries whose cat tag
matches (get_sound builds the same set as a key list and re-reads each
picked key from the dict, which the entry list models directly). -/
def gs_candidates (db : List (String × DBEntry)) (category : String) : List DBEntry :=
  (db.filter (fun kv => kv.2.cat == category)).map (fun kv => kv.2)

/-- One virtual-performer layer of get_sound: random variant choice,
detune of the whole partial array, velocity jitter, additive kernel,
size fix, then the drawn timing shift.  Drummer i consumes draws g (3i),
g (3i+1), g (3i+2) and choice index c i modulo the candidate count. -/
def gs_layer (M : MathFns) (db : List (String × DBEntry)) (g : ℕ → ℚ) (c : ℕ → ℕ)
    (category : String) (velocity duration : ℚ) (i : ℕ) : Except String (List ℚ) :=
  let candidates := gs_candidates db category
  let target := (pyInt (duration * 44100)).toNat
  let data := candidates.getD (c i % candidates.length) (DBEntry.mk "" [])
  let detune : ℚ := 1 + (15/1000) * g (3*i)
  let timingOffset : ℚ := (8/1000) * g (3*i+1)
  match synthesize_additive M (scale_overtones detune data.overtones) duration 44100
      (velocity * ((9/10) + (2/10) * g (3*i+2))) with
  | Except.error e => Except.error e
  | Except.ok layer => Except.ok (shift_layer (fix_size layer target) timingOffset target)

/-- The layer mix loop of get_sound: each layer is added sample-wise into
the ensemble buffer, guarded by the source's size safety check. -/
def gs_mix (layers : List (List ℚ)) (base : List ℚ) (target : ℕ) : List ℚ :=
  layers.foldl
    (fun acc layer => if layer.length = target then List.zipWith (· + ·) acc layer else acc) base

/-- SpectralEngine.get_sound at the engine's 44100 Hz sample rate: zero
buffer when the category has no variants, otherwise four virtual-performer
layers are rendered sequentially (the first raised error aborting the
call), mixed, and the mix is peak-normalized to the velocity. -/
def get_sound (M : MathFns) (db : List (String × DBEntry)) (g : ℕ → ℚ) (c : ℕ → ℕ)
    (category : String) (velocity duration : ℚ) : Except String (List ℚ) :=
  if (gs_candidates db category).isEmpty then
    npZeros (pyInt (duration * 44100))
  else
    let targetZ := pyInt (duration * 44100)
    let target := targetZ.toNat
    match gs_layer M db g c category velocity duration 0,
          gs_layer M db g c category velocity duration 1,
          gs_layer M db g c category velocity duration 2,
          gs_layer M db g c category velocity duration 3 with
    | Except.ok l0, Except.ok l1, Except.ok l2, Except.ok l3 =>
      (match npZeros targetZ with
       | Except.error e => Except.error e
       | Except.ok base =>
         let ensemble := gs_mix [l0, l1, l2, l3] base target
         match npMaxAbs ensemble with
         | Except.error e => Except.error e
         | Except.ok maxVal =>
           Except.ok (if 0 < maxVal then ensemble.map (fun x => x / maxVal * velocity) else ensemble))
    | Except.error e, _, _, _ => Except.error e
    | _, Except.error e, _, _ => Except.error e
    | _, _, Except.error e, _ => Except.error e
    | _, _, _, Except.error e => Except.error e

/-! ### Material properties (material_properties.py) -/

/-- np.random.uniform a b realized from a unit-interval draw u. -/
def npUniform (a b u : ℚ) : ℚ := a + (b - a) * u

/-- np.random.normal mu sigma realized from a standard-normal draw z. -/
def npNormal (mu sigma z : ℚ) : ℚ := mu + sigma * z

/-- WoodProperties: the five numeric fields of the wood presets. -/
structure WoodProperties where
  name : String
  density : ℚ
  youngs_modulus : ℚ
  damping_coefficient : ℚ
  speed_of_sound : ℚ
  hardness : ℚ
deriving DecidableEq

/-- WoodProperties.resonance_brightness: higher density woods produce
darker tones, normalized over the 500-1500 density range. -/
def WoodProperties.resonance_brightness (w : WoodProperties) : ℚ :=
  1 - (w.density - 500) / 1000

/-- The WOOD_DATABASE presets. -/
def WOOD_DATABASE : List (String × WoodProperties) :=
  [("jackwood", ⟨"Jackwood (Varikka)", 720, 98/10, 15/100, 3800, 65⟩),
   ("rosewood", ⟨"Rosewood (Eetti)", 900, 125/10, 18/100, 4200, 80⟩),
   ("teak", ⟨"Teak (Thekku)", 680, 102/10, 12/100, 3900, 70⟩),
   ("bamboo", ⟨"Bamboo (Mula)", 400, 17, 8/100, 4500, 55⟩),
   ("mango", ⟨"Mango Wood (Maavu)", 650, 85/10, 14/100, 3600, 60⟩)]

/-- get_random_wood_variant (material_properties.py): perturbs each field
of the base preset by an independent uniform factor; the draws u 0..u 4
feed the five np.random.uniform calls in source order (density, elasticity,
damping, speed of sound, hardness).  Unknown base wood raises KeyError. -/
def get_random_wood_variant (u : ℕ → ℚ) (base_wood : String) (variation : ℚ) :
    Except String WoodProperties :=
  match WOOD_DATABASE.lookup base_wood with
  | none => Except.error "KeyError"
  | some base => Except.ok
      ⟨base.name ++ " (Variant)",
       base.density * npUniform (1 - variation) (1 + variation) (u 0),
       base.youngs_modulus * npUniform (1 - variation/2) (1 + variation/2) (u 1),
       base.damping_coefficient * npUniform (1 - variation) (1 + variation) (u 2),
       base.speed_of_sound * npUniform (1 - variation/4) (1 + variation/4) (u 3),
       base.hardness * npUniform (1 - variation) (1 + variation) (u 4)⟩

/-- The generator at its Python default argument variation = 0.1. -/
def get_random_wood_variant_default (u : ℕ → ℚ) (base_wood : String) :
    Except String WoodProperties :=
  get_random_wood_variant u base_wood (1/10)

/-- C7's reading of the generator: every numeric field perturbed within
the full plus-minus variation range, except the elasticity modulus at
half that range.  Stated from the claim's words, for comparison with the
source translation above. -/
def get_random_wood_variant_claim (u : ℕ → ℚ) (base_wood : String) (variation : ℚ) :
    Except String WoodProperties :=
  match WOOD_DATABASE.lookup base_wood with
  | none => Except.error "KeyError"
  | some base => Except.ok
      ⟨base.name ++ " (Variant)",
       base.density * npUniform (1 - variation) (1 + variation) (u 0),
       base.youngs_modulus * npUniform (1 - variation/2) (1 + variation/2) (u 1),
       base.damping_coefficient * npUniform (1 - variation) (1 + variation) (u 2),
       base.speed_of_sound * npUniform (1 - variation) (1 + variation) (u 3),
       base.hardness * npUniform (1 - variation) (1 + variation) (u 4)⟩

/-! ### Membrane presets and the create_chenda frame effect
(material_properties.py, player_system.py) -/

/-- MembraneProperties: drum head presets. -/
structure MembraneProperties where
  material : String
  thickness : ℚ
  tension : ℚ
  age_months : ℚ
  moisture_absorption : ℚ
deriving DecidableEq

/-- MembraneProperties.effective_tension: tension times the age factor
1 + (age/24) * 0.3. -/
def MembraneProperties.effective_tension (m : MembraneProperties) : ℚ :=
  m.tension * (1 + m.age_months / 24 * (3/10))

/-- The MEMBRANE_DATABASE presets at module load, before any mutation. -/
def MEMBRANE_DATABASE_init : List (String × MembraneProperties) :=
  [("cow_high", ⟨"cow_leather", 32/10, 85/100, 6, 3/10⟩),
   ("cow_medium", ⟨"cow_leather", 35/10, 65/100, 12, 3/10⟩),
   ("cow_low", ⟨"cow_leather", 4, 45/100, 18, 3/10⟩),
   ("goat_high", ⟨"goat_leather", 28/10, 75/100, 4, 1/4⟩)]

/-- In-place mutation of the preset object stored under a key of the
shared membrane database (the database doubles as the heap of membrane
objects; a key is a reference to the object it stores). -/
def db_update (db : List (String × MembraneProperties)) (key : String)
    (f : MembraneProperties → MembraneProperties) : List (String × MembraneProperties) :=
  db.map (fun kv => if kv.1 = key then (kv.1, f kv.2) else kv)

/-- The membrane handling of InstrumentFactory.create_chenda, as a
heap-passing translation: the two presets are looked up by key (KeyError
when absent), each preset object's tension is then multiplied in place by
a fresh uniform factor in 0.95..1.05 (draw u 0 for the valam preset, u 1
for the edamthala preset; u is the draw stream position after the wood
variant's five draws), and the created chenda stores references (the
database keys) to the very preset objects, not copies. -/
structure ChendaMembraneRefs where
  id : String
  membrane_valam_ref : String
  membrane_edamthala_ref : String
deriving DecidableEq

def create_chenda_membranes (db : List (String × MembraneProperties)) (u : ℕ → ℚ)
    (chenda_id valam_tension edamthala_tension : String) :
    Except String (ChendaMembraneRefs × List (String × MembraneProperties)) :=
  let vkey := "cow_" ++ valam_tension
  let ekey := "cow_" ++ edamthala_tension
  match db.lookup vkey, db.lookup ekey with
  | some _, some _ =>
    let db1 := db_update db vkey
      (fun m => ⟨m.material, m.thickness, m.tension * npUniform (95/100) (105/100) (u 0),
                 m.age_months, m.moisture_absorption⟩)
    let db2 := db_update db1 ekey
      (fun m => ⟨m.material, m.thickness, m.tension * npUniform (95/100) (105/100) (u 1),
                 m.age_months, m.moisture_absorption⟩)
    Except.ok (⟨chenda_id, vkey, ekey⟩, db2)
  | _, _ => Except.error "KeyError"

/-! ### Players and the ensemble (player_system.py) -/

inductive PlayerRole where
  | chenda_lead | chenda_rhythm | chenda_accent
  | elathaalam_primary | elathaalam_secondary | kombu
deriving DecidableEq

inductive InstrumentType where
  | chenda | elathaalam | kombu | kuzhal
deriving DecidableEq

/-- TimingCharacteristics: human timing variability profile. -/
structure TimingCharacteristics where
  base_precision : ℚ
  rush_tendency : ℚ
  groove_offset : ℚ
deriving DecidableEq

/-- TimingCharacteristics.get_timing_offset with its normal draw z (the
beat position argument is accepted but unused, as in the source). -/
def get_timing_offset (tc : TimingCharacteristics) (_beat_position : ℚ) (z : ℚ) : ℚ :=
  npNormal 0 ((1 - tc.base_precision) * (1/100)) z
    + tc.rush_tendency * (5/1000) + tc.groove_offset / 1000

/-- Player: the fields of the Player dataclass the core reads (mix state
pan is stored post-init resolved: it defaults to spatial x when unset). -/
structure Player where
  id : String
  pname : String
  role : PlayerRole
  instrument_type : InstrumentType
  timing : TimingCharacteristics
  skill_level : ℚ
  dynamic_range : ℚ × ℚ
  spatial_position : ℚ × ℚ × ℚ
  gain : ℚ
  pan : ℚ
  mute : Bool
  solo : Bool
deriving DecidableEq

/-- Player.get_velocity_for_intensity with its normal draw z: linear map
of intensity into the dynamic range, plus skill noise, clipped to 0..1. -/
def get_velocity_for_intensity (p : Player) (intensity : ℚ) (z : ℚ) : ℚ :=
  let base := p.dynamic_range.1 + intensity * (p.dynamic_range.2 - p.dynamic_range.1)
  let variation := npNormal 0 ((1 - p.skill_level) * (5/100)) z
  min (max (base + variation) 0) 1

/-- Ensemble: the ordered player registry (dict id to Player). -/
structure Ensemble where
  players : List (String × Player)
deriving DecidableEq

def Ensemble.get_player (e : Ensemble) (pid : String) : Option Player :=
  e.players.lookup pid

def Ensemble.get_players_by_role (e : Ensemble) (role : PlayerRole) : List Player :=
  (e.players.map (fun kv => kv.2)).filter (fun p => decide (p.role = role))

def Ensemble.get_chenda_players (e : Ensemble) : List Player :=
  (e.players.map (fun kv => kv.2)).filter (fun p => decide (p.instrument_type = InstrumentType.chenda))

def Ensemble.get_cymbal_players (e : Ensemble) : List Player :=
  (e.players.map (fun kv => kv.2)).filter (fun p => decide (p.instrument_type = InstrumentType.elathaalam))

/-! ### Orchestration (orchestration_engine.py) -/

/-- StrokeEvent with its orchestration metadata. -/
structure StrokeEvent where
  time : ℚ
  stroke_type : String
  sound_category : String
  intensity : ℚ
  duration : ℚ
  assigned_player : Option String
  velocity : Option ℚ
  contact_point : Option ℚ
deriving DecidableEq

/-- OrchestrationPattern: per-group dicts of player id to assigned list. -/
structure OrchestrationPattern where
  chenda_events : List (String × List StrokeEvent)
  cymbal_events : List (String × List StrokeEvent)
  wind_events : List (String × List StrokeEvent)
deriving DecidableEq

/-- get_all_player_events: the union of the three dicts (the source's
dict updates; key sets are disjoint in every reachable pattern). -/
def OrchestrationPattern.get_all_player_events (p : OrchestrationPattern) :
    List (String × List StrokeEvent) :=
  p.chenda_events ++ p.cymbal_events ++ p.wind_events

/-- Appending an assigned event to the list stored under a player id. -/
def dict_append (d : List (String × List StrokeEvent)) (key : String) (e : StrokeEvent) :
    List (String × List StrokeEvent) :=
  d.map (fun kv => if kv.1 = key then (kv.1, kv.2 ++ [e]) else kv)

/-- _assign_event_to_player: resolves velocity (draw z1), timing offset
(draw z2) and contact point (draw u3; center for loud hits, mid or edge
otherwise) and returns the player-tagged copy of the event. -/
def assign_event_to_player (event : StrokeEvent) (player : Player) (z1 z2 u3 : ℚ) : StrokeEvent :=
  let velocity := get_velocity_for_intensity player event.intensity z1
  let timingOffset := get_timing_offset player.timing event.time z2
  let contact := if event.intensity > 7/10 then npUniform (6/10) (9/10) u3
    else npUniform (3/10) (6/10) u3
  ⟨event.time + timingOffset, event.stroke_type, event.sound_category, event.intensity,
   event.duration, some player.id, some velocity, some contact⟩

/-- _add_cymbal_events: one NAM hit per cymbal player at the given time
(each consumes a timing draw then a velocity draw from the stream). -/
def add_cymbal_events (g : ℕ → ℚ) (time : ℚ) (cymbals : List Player)
    (cym : List (String × List StrokeEvent)) (k : ℕ) :
    List (String × List StrokeEvent) × ℕ :=
  cymbals.foldl
    (fun st cymbal =>
      let ev : StrokeEvent :=
        ⟨time + get_timing_offset cymbal.timing time (g st.2), "1", "NAM", 6/10, 1/2,
         some cymbal.id, some (get_velocity_for_intensity cymbal (6/10) (g (st.2+1))),
         some (1/2)⟩
      (dict_append st.1 cymbal.id ev, st.2 + 2))
    (cym, k)

/-- max of a nonempty list, as Python's max builtin. -/
def listMax : List ℚ → ℚ
  | [] => 0
  | x :: xs => xs.foldl max x

/-- min of a nonempty list, as Python's min builtin. -/
def listMin : List ℚ → ℚ
  | [] => 0
  | x :: xs => xs.foldl min x

/-- _analyze_pattern_complexity: half density (non-rest fraction) plus
half dynamic range, clipped to 0..1. -/
def analyze_pattern_complexity (events : List StrokeEvent) : ℚ :=
  if events.isEmpty then 0
  else
    let nonRest := events.filter (fun e => decide (e.sound_category ≠ "REST"))
    let density := (nonRest.length : ℚ) / (events.length : ℚ)
    let intensities := nonRest.map (fun e => e.intensity)
    let dynamicRange := if intensities.isEmpty then 0 else listMax intensities - listMin intensities
    min (max (density * (1/2) + dynamicRange * (1/2)) 0) 1

/-- _is_structural_beat: every 4th position (total length unused). -/
def is_structural_beat (position : ℕ) (_total_length : ℕ) : Bool :=
  position % 4 == 0

/-- _select_player_traditional: the traditional per-event routing rules. -/
def select_player_traditional (event : StrokeEvent) (position : ℕ) (complexity : ℚ)
    (lead rhythm accent : Player) : Player :=
  let is_downbeat := position % 4 = 0
  if event.intensity > 8/10 then
    if event.stroke_type = "Dheem" ∨ event.stroke_type = "Dha" then accent else lead
  else if is_downbeat ∧ event.intensity < 6/10 then rhythm
  else if complexity > 7/10 then lead
  else [lead, rhythm, accent].getD (position % 3) lead

/-- _orchestrate_traditional.  The loop state is (pattern, draw stream
position, enumerate position); REST events are skipped but still advance
the position.  Missing role players surface the source's IndexError. -/
def orchestrate_traditional (g : ℕ → ℚ) (ens : Ensemble) (events : List StrokeEvent) :
    Except String OrchestrationPattern :=
  match (ens.get_players_by_role PlayerRole.chenda_lead).head?,
        (ens.get_players_by_role PlayerRole.chenda_rhythm).head?,
        (ens.get_players_by_role PlayerRole.chenda_accent).head? with
  | some lead, some rhythm, some accent =>
    let cymbals := ens.get_cymbal_players
    let init : OrchestrationPattern :=
      ⟨[(lead.id, []), (rhythm.id, []), (accent.id, [])],
       cymbals.map (fun cy => (cy.id, [])), []⟩
    let complexity := analyze_pattern_complexity events
    Except.ok (events.foldl
      (fun st event =>
        let pat := st.1
        let k := st.2.1
        let i := st.2.2
        if event.sound_category = "REST" then (pat, k, i + 1)
        else
          let player := select_player_traditional event i complexity lead rhythm accent
          let assigned := assign_event_to_player event player (g k) (g (k+1)) (g (k+2))
          let pat1 : OrchestrationPattern :=
            ⟨dict_append pat.chenda_events player.id assigned, pat.cymbal_events, pat.wind_events⟩
          if is_structural_beat i events.length then
            let ck := add_cymbal_events g event.time cymbals pat1.cymbal_events (k+3)
            (⟨pat1.chenda_events, ck.1, pat1.wind_events⟩, ck.2, i + 1)
          else (pat1, k + 3, i + 1))
      (init, 0, 0)).1
  | _, _, _ => Except.error "IndexError"

/-- _select_player_by_load: Python's min over the insertion-ordered load
dict returns the first player attaining the minimum count; the id is then
resolved through the ensemble registry. -/
def select_player_by_load (ens : Ensemble) (players : List Player)
    (chenda : List (String × List StrokeEvent)) : Option Player :=
  let loads := players.map (fun p => (p.id, ((chenda.lookup p.id).getD []).length))
  match loads.foldl
      (fun best kv => match best with
        | none => some kv
        | some b => if kv.2 < b.2 then some kv else some b)
      none with
  | none => none
  | some best => ens.get_player best.1

/-- _orchestrate_dynamic: least-loaded chenda player per event, cymbal
hit at every 8th position.  Python's min raises on an empty ensemble. -/
def orchestrate_dynamic (g : ℕ → ℚ) (ens : Ensemble) (events : List StrokeEvent) :
    Except String OrchestrationPattern :=
  let chenda_players := ens.get_chenda_players
  let cymbals := ens.get_cymbal_players
  let init : OrchestrationPattern :=
    ⟨chenda_players.map (fun p => (p.id, [])), cymbals.map (fun cy => (cy.id, [])), []⟩
  (events.foldl
    (fun (st : Except String (OrchestrationPattern × ℕ × ℕ)) event =>
      match st with
      | Except.error e => Except.error e
      | Except.ok (pat, k, i) =>
        if event.sound_category = "REST" then Except.ok (pat, k, i + 1)
        else
          match select_player_by_load ens chenda_players pat.chenda_events with
          | none => Except.error "ValueError"
          | some player =>
            let assigned := assign_event_to_player event player (g k) (g (k+1)) (g (k+2))
            let pat1 : OrchestrationPattern :=
              ⟨dict_append pat.chenda_events player.id assigned, pat.cymbal_events, pat.wind_events⟩
            if i % 8 = 0 then
              let ck := add_cymbal_events g event.time cymbals pat1.cymbal_events (k+3)
              Except.ok (⟨pat1.chenda_events, ck.1, pat1.wind_events⟩, ck.2, i + 1)
            else Except.ok (pat1, k + 3, i + 1))
    (Except.ok (init, 0, 0))).map (fun st => st.1)

/-- _orchestrate_antiphonal: four-event phrases; even phrases go to the
lead, odd phrases alternate rhythm and accent by event-index parity.  The
cymbal dict is initialized but never filled, as in the source. -/
def orchestrate_antiphonal (g : ℕ → ℚ) (ens : Ensemble) (events : List StrokeEvent) :
    Except String OrchestrationPattern :=
  match (ens.get_players_by_role PlayerRole.chenda_lead).head?,
        (ens.get_players_by_role PlayerRole.chenda_rhythm).head?,
        (ens.get_players_by_role PlayerRole.chenda_accent).head? with
  | some lead, some rhythm, some accent =>
    let cymbals := ens.get_cymbal_players
    let init : OrchestrationPattern :=
      ⟨[(lead.id, []), (rhythm.id, []), (accent.id, [])],
       cymbals.map (fun cy => (cy.id, [])), []⟩
    Except.ok (events.foldl
      (fun st event =>
        let pat := st.1
        let k := st.2.1
        let i := st.2.2
        if event.sound_category = "REST" then (pat, k, i + 1)
        else
          let player := if (i / 4) % 2 = 0 then lead
            else if i % 2 = 0 then rhythm else accent
          let assigned := assign_event_to_player event player (g k) (g (k+1)) (g (k+2))
          (⟨dict_append pat.chenda_events player.id assigned, pat.cymbal_events, pat.wind_events⟩,
           k + 3, i + 1))
      (init, 0, 0)).1
  | _, _, _ => Except.error "IndexError"

/-- _orchestrate_unison: every non-REST event is assigned to every chenda
player (each copy with its own three draws), cymbals on structural beats. -/
def orchestrate_unison (g : ℕ → ℚ) (ens : Ensemble) (events : List StrokeEvent) :
    Except String OrchestrationPattern :=
  let chenda_players := ens.get_chenda_players
  let cymbals := ens.get_cymbal_players
  let init : OrchestrationPattern :=
    ⟨chenda_players.map (fun p => (p.id, [])), cymbals.map (fun cy => (cy.id, [])), []⟩
  Except.ok (events.foldl
    (fun st event =>
      let pat := st.1
      let k := st.2.1
      let i := st.2.2
      if event.sound_category = "REST" then (pat, k, i + 1)
      else
        let inner := chenda_players.foldl
          (fun st2 player =>
            (dict_append st2.1 player.id
              (assign_event_to_player event player (g st2.2) (g (st2.2+1)) (g (st2.2+2))),
             st2.2 + 3))
          (pat.chenda_events, k)
        let pat1 : OrchestrationPattern := ⟨inner.1, pat.cymbal_events, pat.wind_events⟩
        if is_structural_beat i events.length then
          let ck := add_cymbal_events g event.time cymbals pat1.cymbal_events inner.2
          (⟨pat1.chenda_events, ck.1, pat1.wind_events⟩, ck.2, i + 1)
        else (pat1, inner.2, i + 1))
    (init, 0, 0)).1

/-- _orchestrate_layered: cumulative entries at positions 0, len/4, len/2
(integer division); once active, a chenda player plays every subsequent
non-REST event.  No cymbal events are added, as in the source. -/
def orchestrate_layered (g : ℕ → ℚ) (ens : Ensemble) (events : List StrokeEvent) :
    Except String OrchestrationPattern :=
  let chenda_players := ens.get_chenda_players
  let cymbals := ens.get_cymbal_players
  let init : OrchestrationPattern :=
    ⟨chenda_players.map (fun p => (p.id, [])), cymbals.map (fun cy => (cy.id, [])), []⟩
  let entry_points := [0, events.length / 4, events.length / 2]
  Except.ok (events.foldl
    (fun st event =>
      let pat := st.1
      let k := st.2.1
      let i := st.2.2
      if event.sound_category = "REST" then (pat, k, i + 1)
      else
        let active : List Player := ((entry_points.enum).filter
          (fun pe => decide (pe.2 ≤ i) && decide (pe.1 < chenda_players.length))).map
          (fun pe => chenda_players.getD pe.1
            ⟨"", "", PlayerRole.kombu, InstrumentType.kombu, ⟨0,0,0⟩, 0, (0,0), (0,0,0), 1, 0,
             false, false⟩)
        let inner := active.foldl
          (fun st2 player =>
            (dict_append st2.1 player.id
              (assign_event_to_player event player (g st2.2) (g (st2.2+1)) (g (st2.2+2))),
             st2.2 + 3))
          (pat.chenda_events, k)
        (⟨inner.1, pat.cymbal_events, pat.wind_events⟩, inner.2, i + 1))
    (init, 0, 0)).1

inductive OrchestrationStrategy where
  | traditional | dynamic | antiphonal | unison | layered
deriving DecidableEq

/-- OrchestrationEngine.orchestrate_sequence: strategy dispatch. -/
def orchestrate_sequence (g : ℕ → ℚ) (ens : Ensemble) (events : List StrokeEvent)
    (strategy : OrchestrationStrategy) : Except String OrchestrationPattern :=
  match strategy with
  | OrchestrationStrategy.traditional => orchestrate_traditional g ens events
  | OrchestrationStrategy.dynamic => orchestrate_dynamic g ens events
  | OrchestrationStrategy.antiphonal => orchestrate_antiphonal g ens events
  | OrchestrationStrategy.unison => orchestrate_unison g ens events
  | OrchestrationStrategy.layered => orchestrate_layered g ens events

/-! ### Ensemble mixer (ensemble_mixer.py), over the reals

The per-event strike synthesis (spectral fetch plus material effects) is a
function parameter of the track renderer: the claims settled here
constrain the placement loop, the solo logic, the spatial stage and the
mastering stage, uniformly in whatever waveform each strike produced. -/

/-- Peak (max of absolute values) of a real buffer, as the np.max fold. -/
noncomputable def peakAbs (l : List ℝ) : ℝ :=
  l.foldl (fun m x => max m |x|) 0

/-- _render_player_track: a mono buffer of int(duration*44100) samples;
REST events are skipped, the per-instrument strike waveform (chenda or
cymbal synthesis, silence placeholder for wind) is accumulated at the
event's start sample, clamped to buffer bounds, empty sounds skipped. -/
def add_at (track sound : List ℝ) (start : ℕ) : List ℝ :=
  let seg := List.zipWith (· + ·) (track.drop start) sound
  track.take start ++ seg ++ track.drop (start + seg.length)

def render_player_track (synthChenda synthCymbal : Player → StrokeEvent → List ℝ)
    (player : Player) (events : List StrokeEvent) (duration : ℚ) : List ℝ :=
  let numSamples := (pyInt (duration * 44100)).toNat
  events.foldl
    (fun track event =>
      if event.sound_category = "REST" then track
      else
        let sound :=
          if player.instrument_type = InstrumentType.chenda then synthChenda player event
          else if player.instrument_type = InstrumentType.elathaalam then synthCymbal player event
          else List.replicate (pyInt ((1/10) * 44100)).toNat (0 : ℝ)
        if sound.length = 0 then track
        else
          let startSample := (max 0 (pyInt (event.time * 44100))).toNat
          if numSamples ≤ startSample then track
          else add_at track sound startSample)
    (List.replicate numSamples (0 : ℝ))

/-- _apply_spatial_position on the pan-overridden position: constant-power
pan with clamped inverse-distance attenuation and the optional back-row
propagation delay. -/
noncomputable def apply_spatial_position (mono : List ℝ) (position : ℚ × ℚ × ℚ) :
    List ℝ × List ℝ :=
  let x : ℝ := (position.1 : ℝ)
  let y : ℝ := (position.2.1 : ℝ)
  let z : ℝ := (position.2.2 : ℝ)
  let pan := min (max x (-1)) 1
  let distance0 := Real.sqrt (x^2 + y^2 + z^2)
  let distance := if distance0 < 1/10 then (1/10 : ℝ) else distance0
  let attenuation := min (max (1 / distance) (1/2)) 2
  let angle := (pan + 1) * Real.pi / 4
  let leftGain := Real.cos angle * attenuation
  let rightGain := Real.sin angle * attenuation
  let left := mono.map (fun s => s * leftGain)
  let right := mono.map (fun s => s * rightGain)
  if (position.2.2 : ℚ) > 1/2 then
    let ds := (pyInt ((position.2.2 - 1/2) / 343 * 44100)).toNat
    if 0 < ds ∧ ds < 100 then
      ((List.replicate ds (0:ℝ) ++ left).take left.length,
       (List.replicate ds (0:ℝ) ++ right).take right.length)
    else (left, right)
  else (left, right)

/-- The active-player filter and per-player track rendering of
render_ensemble: muted players are skipped unless soloed, every non-soloed
player is skipped when some listed player is soloed, and a pattern key
that resolves to no ensemble player raises (None has no mute attribute).
Collects each rendered track with the player's gain applied. -/
def player_tracks (synthChenda synthCymbal : Player → StrokeEvent → List ℝ)
    (ens : Ensemble) (allEvents : List (String × List StrokeEvent)) (soloActive : Bool)
    (duration : ℚ) : Except String (List (Player × List ℝ)) :=
  allEvents.foldl
    (fun acc kv =>
      match acc with
      | Except.error e => Except.error e
      | Except.ok lst =>
        if kv.2.isEmpty then Except.ok lst
        else
          match ens.get_player kv.1 with
          | none => Except.error "AttributeError"
          | some player =>
            if player.mute && !player.solo then Except.ok lst
            else if soloActive && !player.solo then Except.ok lst
            else
              let track := (render_player_track synthChenda synthCymbal player kv.2 duration).map
                (fun s => s * (player.gain : ℝ))
              Except.ok (lst ++ [(player, track)]))
    (Except.ok [])

/-- Solo detection of render_ensemble: any listed player id that resolves
to a soloed player (unresolved ids are filtered out before the check). -/
def solo_active (ens : Ensemble) (allEvents : List (String × List StrokeEvent)) : Bool :=
  allEvents.any (fun kv => match ens.get_player kv.1 with
    | some p => p.solo
    | none => false)

/-- The stereo bus sum of the spatialized player channels. -/
noncomputable def mix_spatial (pts : List (Player × List ℝ)) (num : ℕ) : List ℝ × List ℝ :=
  pts.foldl
    (fun st pt =>
      let lr := apply_spatial_position pt.2
        (pt.1.pan, pt.1.spatial_position.2.1, pt.1.spatial_position.2.2)
      (List.zipWith (· + ·) st.1 lr.1, List.zipWith (· + ·) st.2 lr.2))
    (List.replicate num (0:ℝ), List.replicate num (0:ℝ))

/-- The mono bus sum of the player tracks. -/
def mix_mono (pts : List (Player × List ℝ)) (num : ℕ) : List ℝ :=
  pts.foldl (fun acc pt => List.zipWith (· + ·) acc pt.2) (List.replicate num (0:ℝ))

/-- The stereo mastering stage of render_ensemble: when the bus is
nonsilent, soft-saturate with tanh at drive 1.5 (pre-peak below 0.5) or
1.0, then normalize to 0.98 only when the post-saturation peak exceeds
it. -/
noncomputable def master_stereo (mixL mixR : List ℝ) : List ℝ × List ℝ :=
  let peakPre := max (peakAbs mixL) (peakAbs mixR)
  if 0 < peakPre then
    let drive : ℝ := if peakPre < 1/2 then 3/2 else 1
    let satL := mixL.map (fun x => Real.tanh (x * drive))
    let satR := mixR.map (fun x => Real.tanh (x * drive))
    let peakPost := max (peakAbs satL) (peakAbs satR)
    if peakPost > 98/100 then
      (satL.map (fun x => x / peakPost * (98/100)), satR.map (fun x => x / peakPost * (98/100)))
    else (satL, satR)
  else (mixL, mixR)

/-- The mono mastering stage of render_ensemble: when the bus is
nonsilent, tanh at the fixed drive 1.2, then the same 0.98 safety
normalization. -/
noncomputable def master_mono (mix : List ℝ) : List ℝ :=
  let peakPre := peakAbs mix
  if 0 < peakPre then
    let sat := mix.map (fun x => Real.tanh (x * (12/10)))
    let peakPost := peakAbs sat
    if peakPost > 98/100 then sat.map (fun x => x / peakPost * (98/100)) else sat
  else mix

/-- C6's reading of the stereo mastering stage, stated from the claim's
words: tanh (bus times drive), drive 1.5 when the pre-saturation peak is
below 0.5 and 1.0 otherwise, then peak-normalization to 0.98 exactly when
the post-saturation peak exceeds it. -/
noncomputable def master_stereo_claim (mixL mixR : List ℝ) : List ℝ × List ℝ :=
  let peakPre := max (peakAbs mixL) (peakAbs mixR)
  let drive : ℝ := if peakPre < 1/2 then 3/2 else 1
  let satL := mixL.map (fun x => Real.tanh (x * drive))
  let satR := mixR.map (fun x => Real.tanh (x * drive))
  let peakPost := max (peakAbs satL) (peakAbs satR)
  if peakPost > 98/100 then
    (satL.map (fun x => x / peakPost * (98/100)), satR.map (fun x => x / peakPost * (98/100)))
  else (satL, satR)

/-- C6's reading of the mono mastering stage, stated from the claim's
words (the same conditional 1.5 / 1.0 drive). -/
noncomputable def master_mono_claim (mix : List ℝ) : List ℝ :=
  let peakPre := peakAbs mix
  let drive : ℝ := if peakPre < 1/2 then 3/2 else 1
  let sat := mix.map (fun x => Real.tanh (x * drive))
  let peakPost := peakAbs sat
  if peakPost > 98/100 then sat.map (fun x => x / peakPost * (98/100)) else sat

/-- The amended reading of the mono mastering stage: fixed drive 1.2. -/
noncomputable def master_mono_amended (mix : List ℝ) : List ℝ :=
  let sat := mix.map (fun x => Real.tanh (x * (12/10)))
  let peakPost := peakAbs sat
  if peakPost > 98/100 then sat.map (fun x => x / peakPost * (98/100)) else sat

/-- render_ensemble: active-player tracks, spatial or mono bus, then the
corresponding mastering stage; the master buffer is returned (stereo as a
channel pair). -/
noncomputable def render_ensemble (synthChenda synthCymbal : Player → StrokeEvent → List ℝ)
    (ens : Ensemble) (pattern : OrchestrationPattern) (duration : ℚ) (enableSpatial : Bool) :
    Except String (List ℝ ⊕ (List ℝ × List ℝ)) :=
  let num := (pyInt (duration * 44100)).toNat
  let allEvents := pattern.get_all_player_events
  match player_tracks synthChenda synthCymbal ens allEvents (solo_active ens allEvents) duration with
  | Except.error e => Except.error e
  | Except.ok pts =>
    if enableSpatial then
      let lr := mix_spatial pts num
      Except.ok (Sum.inr (master_stereo lr.1 lr.2))
    else
      Except.ok (Sum.inl (master_mono (mix_mono pts num)))

/-- The orchestration pattern restricted to a single player id. -/
def restrict_pattern (pattern : OrchestrationPattern) (pid : String) : OrchestrationPattern :=
  ⟨pattern.chenda_events.filter (fun kv => kv.1 == pid),
   pattern.cymbal_events.filter (fun kv => kv.1 == pid),
   pattern.wind_events.filter (fun kv => kv.1 == pid)⟩

/-! ### Float samples with NaN, for the mixer post-processing stages -/

/-- An IEEE float sample: a numeric value or NaN.  Every arithmetic
operation with a NaN operand yields NaN, as float arithmetic does
(including NaN times zero). -/
inductive F where
  | num : ℚ → F
  | nan : F
deriving DecidableEq

def F.add : F → F → F
  | F.num a, F.num b => F.num (a + b)
  | _, _ => F.nan

def F.sub : F → F → F
  | F.num a, F.num b => F.num (a - b)
  | _, _ => F.nan

/-- Scalar (non-NaN) times sample. -/
def F.smul (q : ℚ) : F → F
  | F.num a => F.num (q * a)
  | F.nan => F.nan

/-- One second-order section of a first-order Butterworth design
(b2 = a2 = 0), as an abstract coefficient triple (b0, b1, a1). -/
def sosfilt1 (b0 b1 a1 : ℚ) : List F → F → List F
  | [], _ => []
  | x :: xs, z =>
    let y := F.add (F.smul b0 x) z
    y :: sosfilt1 b0 b1 a1 xs (F.sub (F.smul b1 x) (F.smul a1 y))

/-- interp1d linear evaluation with fill value 0 outside the node range
0 .. n-1 (scipy's slope arithmetic, so NaN nodes make NaN outputs). -/
def interp_at (y : List F) (q : ℚ) : F :=
  let n := y.length
  if q < 0 ∨ (n:ℚ) - 1 < q then F.num 0
  else if (n:ℚ) - 1 ≤ q then y.getD (n - 1) (F.num 0)
  else
    let k := (⌊q⌋).toNat
    F.add (y.getD k (F.num 0)) (F.smul (q - (k:ℚ)) (F.sub (y.getD (k+1) (F.num 0)) (y.getD k (F.num 0))))

/-- _apply_pitch_bend: on a long enough bend window, the first
bend_samples samples are re-read at the stretched positions i*factor with
factor 1/(1 - bend/2) via linear interpolation, when the last stretched
position stays inside the window (otherwise the buffer is unchanged, as
it also is under the source's blanket interpolation exception handler). -/
def apply_pitch_bend (signal : List F) (bendAmount bendDuration : ℚ) : List F :=
  let bs := min (pyInt (bendDuration * 44100)).toNat signal.length
  if bs < 10 then signal
  else
    let factor : ℚ := 1 / (1 - bendAmount * (1/2))
    let bent := signal.take bs
    if ((bs:ℚ) - 1) * factor < (bs:ℚ) then
      (List.range bs).map (fun i => interp_at bent ((i:ℚ) * factor)) ++ signal.drop bs
    else signal

/-- _apply_wood_character: one-pole high-pass blend for bright wood,
low-pass blend for dark wood, untouched in the neutral band.  The
Butterworth design is the abstract coefficient function butterC
(cutoff, isHighPass). -/
def apply_wood_character (butterC : ℚ → Bool → ℚ × ℚ × ℚ) (signal : List F)
    (brightness : ℚ) : List F :=
  if brightness > 6/10 then
    let cfs := butterC 1500 true
    let filtered := sosfilt1 cfs.1 cfs.2.1 cfs.2.2 signal (F.num 0)
    let blend := (brightness - 6/10) * (1/2)
    List.zipWith (fun s f => F.add (F.smul (1 - blend) s) (F.smul blend f)) signal filtered
  else if brightness < 4/10 then
    let cfs := butterC 800 false
    let filtered := sosfilt1 cfs.1 cfs.2.1 cfs.2.2 signal (F.num 0)
    let blend := (4/10 - brightness) * (1/2)
    List.zipWith (fun s f => F.add (F.smul (1 - blend) s) (F.smul blend f)) signal filtered
  else signal

/-- apply_contact_point_filtering (stick_physics.py): high-pass blend for
center hits, low-pass blend for edge hits, up to 20 percent. -/
def apply_contact_point_filtering (butterC : ℚ → Bool → ℚ × ℚ × ℚ) (signal : List F)
    (contact_point : ℚ) : List F :=
  if contact_point > 1/2 then
    let cutoff := 300 + (contact_point - 1/2) * 1000
    let cfs := butterC cutoff true
    let filtered := sosfilt1 cfs.1 cfs.2.1 cfs.2.2 signal (F.num 0)
    let blend := (contact_point - 1/2) * (2/5)
    List.zipWith (fun s f => F.add (F.smul (1 - blend) s) (F.smul blend f)) signal filtered
  else
    let cutoff := 1500 + contact_point * 2000
    let cfs := butterC cutoff false
    let filtered := sosfilt1 cfs.1 cfs.2.1 cfs.2.2 signal (F.num 0)
    let blend := (1/2 - contact_point) * (2/5)
    List.zipWith (fun s f => F.add (F.smul (1 - blend) s) (F.smul blend f)) signal filtered

/-- The scalar strike-profile inputs _apply_material_effects reads. -/
structure StrikeResponse where
  pitch_bend_amount : ℚ
  pitch_bend_duration : ℚ
deriving DecidableEq

/-- _apply_material_effects: conditional pitch bend, wood-character
filtering at the body wood's resonance brightness, then contact-point
filtering at the strike profile's contact point.  No stage checks for
NaN. -/
def apply_material_effects (butterC : ℚ → Bool → ℚ × ℚ × ℚ) (signal : List F)
    (resp : StrikeResponse) (brightness contact_point : ℚ) : List F :=
  let out1 := if resp.pitch_bend_amount > 1/100 then
      apply_pitch_bend signal resp.pitch_bend_amount resp.pitch_bend_duration
    else signal
  let out2 := apply_wood_character butterC out1 brightness
  apply_contact_point_filtering butterC out2 contact_point

/-! ### Concrete sample data used by witnesses and counterexamples -/

/-- The all-zero draw stream. -/
def zeroStream : ℕ → ℚ := fun _ => 0

/-- The all-zero choice stream. -/
def zeroChoice : ℕ → ℕ := fun _ => 0

/-- A math-function instantiation with every transcendental read as 0. -/
def M0 : MathFns := ⟨fun _ => 0, fun _ => 0, 0⟩

/-- A one-signature database for the THAAM category. -/
def dbTHAAM : List (String × DBEntry) :=
  [("sig1", ⟨"THAAM", [(200, 1, 1)]⟩)]

/-- A trivial Butterworth coefficient instantiation. -/
def butterC0 : ℚ → Bool → ℚ × ℚ × ℚ := fun _ _ => (1, 0, 0)

/-- Sample lead player. -/
def pLead : Player :=
  ⟨"P1", "Lead Player", PlayerRole.chenda_lead, InstrumentType.chenda,
   ⟨95/100, 2/100, 0⟩, 95/100, (6/10, 1), (-3/10, 0, 1), 1, -3/10, false, false⟩

/-- Sample rhythm player. -/
def pRhythm : Player :=
  ⟨"P2", "Rhythm Player", PlayerRole.chenda_rhythm, InstrumentType.chenda,
   ⟨98/100, 0, 0⟩, 92/100, (1/2, 85/100), (3/10, 0, 1), 1, 3/10, false, false⟩

/-- Sample accent player. -/
def pAccent : Player :=
  ⟨"P3", "Accent Player", PlayerRole.chenda_accent, InstrumentType.chenda,
   ⟨9/10, -1/100, 0⟩, 9/10, (2/5, 1), (0, 0, 4/5), 1, 0, false, false⟩

/-- Sample accent player with solo engaged. -/
def pAccentSolo : Player :=
  ⟨"P3", "Accent Player", PlayerRole.chenda_accent, InstrumentType.chenda,
   ⟨9/10, -1/100, 0⟩, 9/10, (2/5, 1), (0, 0, 4/5), 1, 0, false, true⟩

/-- Sample cymbal player. -/
def pCymbal : Player :=
  ⟨"P4", "Elathaalam 1", PlayerRole.elathaalam_primary, InstrumentType.elathaalam,
   ⟨93/100, 0, 0⟩, 9/10, (1/2, 9/10), (-4/5, 0, 6/5), 1, -4/5, false, false⟩

/-- A three-chenda sample ensemble. -/
def ensSample : Ensemble :=
  ⟨[("P1", pLead), ("P2", pRhythm), ("P3", pAccent), ("P4", pCymbal)]⟩

/-- The sample ensemble with the accent player soloed. -/
def ensSampleSolo : Ensemble :=
  ⟨[("P1", pLead), ("P2", pRhythm), ("P3", pAccentSolo), ("P4", pCymbal)]⟩

/-- A sample non-REST stroke event. -/
def evTa : StrokeEvent := ⟨0, "Ta", "THAAM", 7/10, 2/5, none, none, none⟩

/-- A sample REST stroke event. -/
def evRest : StrokeEvent := ⟨1/2, ".", "REST", 0, 2/5, none, none, none⟩

/-- A sample heavy accent stroke event at intensity 0.95. -/
def evDheem : StrokeEvent := ⟨1, "Dheem", "DHEEM", 95/100, 2/5, none, none, none⟩


/-- The player-independent core of a stroke event: stroke type, sound
category, intensity and duration (the payload a unison copy shares with
its source event; time, velocity and contact are per-copy resolved). -/
def event_core (e : StrokeEvent) : String × String × ℚ × ℚ :=
  (e.stroke_type, e.sound_category, e.intensity, e.duration)

/-- No event stored in the dict has the REST sentinel category. -/
def rest_free_dict (d : List (String × List StrokeEvent)) : Prop :=
  ∀ kv ∈ d, ∀ e ∈ kv.2, e.sound_category ≠ "REST"


/-- A trivial strike synthesizer (silence) for concrete instantiation. -/
def synthZero : Player → StrokeEvent → List ℝ := fun _ _ => []

/-- A concrete orchestration pattern naming three of the sample players. -/
def patSample : OrchestrationPattern :=
  ⟨[("P1", [evTa]), ("P3", [evTa])], [("P4", [evTa])], []⟩

/-! ## Theorems -/

/-! ### General helper lemmas -/

theorem foldl_max_abs_le_init (l : List ℚ) : ∀ a : ℚ, a ≤ l.foldl (fun m x => max m |x|) a := by
  induction l with
  | nil => intro a; exact le_refl a
  | cons x xs ih => intro a; exact le_trans (le_max_left a |x|) (ih (max a |x|))

theorem foldl_max_abs_mem (l : List ℚ) :
    ∀ (a x : ℚ), x ∈ l → |x| ≤ l.foldl (fun m y => max m |y|) a := by
  induction l with
  | nil => intro a x hx; cases hx
  | cons y ys ih =>
    intro a x hx
    rcases List.mem_cons.mp hx with h | h
    · subst h; exact le_trans (le_max_right a |x|) (foldl_max_abs_le_init ys _)
    · exact ih _ x h

theorem foldl_invariant {α β : Type} (P : β → Prop) (f : β → α → β) :
    ∀ (l : List α) (b : β), P b → (∀ b a, P b → P (f b a)) → P (l.foldl f b) := by
  intro l
  induction l with
  | nil => intro b hb _; exact hb
  | cons x xs ih => intro b hb hstep; exact ih (f b x) (hstep b x hb) hstep

/-! ### C4: traditional heavy accents route to the accent player -/

/-- C4: under the traditional strategy's per-event routing, every event
with intensity 0.95 whose stroke type is in the designated heavy-accent
set (Dheem, Dha) is selected for the accent player, at every position and
for every surrounding-pattern complexity. -/
theorem traditional_heavy_accent_to_accent_player (event : StrokeEvent) (position : ℕ)
    (complexity : ℚ) (lead rhythm accent : Player)
    (hint : event.intensity = 95/100)
    (hstroke : event.stroke_type = "Dheem" ∨ event.stroke_type = "Dha") :
    select_player_traditional event position complexity lead rhythm accent = accent := by
  have h1 : event.intensity > 8/10 := by rw [hint]; norm_num
  simp only [select_player_traditional, if_pos h1, if_pos hstroke]

/-- C4 witness: the concrete Dheem event at intensity 0.95 is routed to
the accent player at position 1 with complexity one half. -/
theorem traditional_heavy_accent_to_accent_player_witness :
    select_player_traditional evDheem 1 (1/2) pLead pRhythm pAccent = pAccent :=
  traditional_heavy_accent_to_accent_player evDheem 1 (1/2) pLead pRhythm pAccent rfl (Or.inl rfl)

theorem npUniform_mem (a b u : ℚ) (hab : a ≤ b) (h0 : 0 ≤ u) (h1 : u ≤ 1) :
    a ≤ npUniform a b u ∧ npUniform a b u ≤ b := by
  unfold npUniform
  constructor <;> nlinarith

theorem db_update_lookup_self (db : List (String × MembraneProperties)) (key : String)
    (f : MembraneProperties → MembraneProperties) :
    (db_update db key f).lookup key = (db.lookup key).map f := by
  induction db with
  | nil => rfl
  | cons kv t ih =>
    simp only [db_update, List.map_cons] at ih ⊢
    by_cases hk : kv.1 = key
    · rw [if_pos hk]
      have hb : (key == kv.1) = true := beq_iff_eq.mpr hk.symm
      simp [List.lookup, hb]
    · rw [if_neg hk]
      have hb : (key == kv.1) = false := beq_eq_false_iff_ne.mpr (fun hh => hk hh.symm)
      simp [List.lookup, hb, ih]

theorem db_update_lookup_ne (db : List (String × MembraneProperties)) (key k2 : String)
    (f : MembraneProperties → MembraneProperties) (h : k2 ≠ key) :
    (db_update db key f).lookup k2 = db.lookup k2 := by
  induction db with
  | nil => rfl
  | cons kv t ih =>
    simp only [db_update, List.map_cons] at ih ⊢
    by_cases hk : kv.1 = key
    · rw [if_pos hk]
      have hb : (k2 == kv.1) = false := beq_eq_false_iff_ne.mpr (fun hh => h (hh.trans hk))
      simp [List.lookup, hb, ih]
    · rw [if_neg hk]
      cases hb : (k2 == kv.1) <;> simp [List.lookup, hb, ih]

/-- C10: every create_chenda call mutates the shared membrane preset
database in place: the tension of each of the two looked-up presets is
multiplied by a fresh uniform factor in 0.95..1.05, so the database does
not stay constant across ensemble builds (a second build compounds the
factor on the stored object), and two chendas built from the same tension
key hold references to the very same membrane object (the same database
cell), not independent copies. -/
theorem create_chenda_mutates_shared_membranes
    (db : List (String × MembraneProperties)) (u u' : ℕ → ℚ)
    (cid cid' vt et : String) (mv me : MembraneProperties)
    (hv : db.lookup ("cow_" ++ vt) = some mv)
    (he : db.lookup ("cow_" ++ et) = some me)
    (hne : ("cow_" ++ vt) ≠ ("cow_" ++ et))
    (hu0 : 0 ≤ u 0 ∧ u 0 ≤ 1) (hu1 : 0 ≤ u 1 ∧ u 1 ≤ 1) :
    ∃ refs db1 refs' db2,
      create_chenda_membranes db u cid vt et = Except.ok (refs, db1) ∧
      refs.membrane_valam_ref = "cow_" ++ vt ∧
      refs.membrane_edamthala_ref = "cow_" ++ et ∧
      db1.lookup ("cow_" ++ vt) = some ⟨mv.material, mv.thickness,
        mv.tension * npUniform (95/100) (105/100) (u 0), mv.age_months, mv.moisture_absorption⟩ ∧
      db1.lookup ("cow_" ++ et) = some ⟨me.material, me.thickness,
        me.tension * npUniform (95/100) (105/100) (u 1), me.age_months, me.moisture_absorption⟩ ∧
      95/100 ≤ npUniform (95/100) (105/100) (u 0) ∧
      npUniform (95/100) (105/100) (u 0) ≤ 105/100 ∧
      95/100 ≤ npUniform (95/100) (105/100) (u 1) ∧
      npUniform (95/100) (105/100) (u 1) ≤ 105/100 ∧
      create_chenda_membranes db1 u' cid' vt et = Except.ok (refs', db2) ∧
      refs'.membrane_valam_ref = refs.membrane_valam_ref ∧
      db2.lookup ("cow_" ++ vt) = some ⟨mv.material, mv.thickness,
        mv.tension * npUniform (95/100) (105/100) (u 0) * npUniform (95/100) (105/100) (u' 0),
        mv.age_months, mv.moisture_absorption⟩ := by
  set vkey := "cow_" ++ vt with hvkey
  set ekey := "cow_" ++ et with hekey
  set f0 : MembraneProperties → MembraneProperties := fun m =>
    ⟨m.material, m.thickness, m.tension * npUniform (95/100) (105/100) (u 0),
     m.age_months, m.moisture_absorption⟩ with hf0
  set f1 : MembraneProperties → MembraneProperties := fun m =>
    ⟨m.material, m.thickness, m.tension * npUniform (95/100) (105/100) (u 1),
     m.age_months, m.moisture_absorption⟩ with hf1
  set g0 : MembraneProperties → MembraneProperties := fun m =>
    ⟨m.material, m.thickness, m.tension * npUniform (95/100) (105/100) (u' 0),
     m.age_months, m.moisture_absorption⟩ with hg0
  set g1 : MembraneProperties → MembraneProperties := fun m =>
    ⟨m.material, m.thickness, m.tension * npUniform (95/100) (105/100) (u' 1),
     m.age_months, m.moisture_absorption⟩ with hg1
  have hdb1v : (db_update (db_update db vkey f0) ekey f1).lookup vkey = some (f0 mv) := by
    rw [db_update_lookup_ne _ _ _ _ hne, db_update_lookup_self, hv]; rfl
  have hdb1e : (db_update (db_update db vkey f0) ekey f1).lookup ekey = some (f1 me) := by
    rw [db_update_lookup_self, db_update_lookup_ne _ _ _ _ (Ne.symm hne), he]; rfl
  refine ⟨⟨cid, vkey, ekey⟩, db_update (db_update db vkey f0) ekey f1,
         ⟨cid', vkey, ekey⟩,
         db_update (db_update (db_update (db_update db vkey f0) ekey f1) vkey g0) ekey g1,
         ?_, rfl, rfl, ?_, ?_, ?_, ?_, ?_, ?_, ?_, rfl, ?_⟩
  · simp only [create_chenda_membranes, ← hvkey, ← hekey, hv, he]
  · exact hdb1v
  · exact hdb1e
  · exact (npUniform_mem (95/100) (105/100) (u 0) (by norm_num) hu0.1 hu0.2).1
  · exact (npUniform_mem (95/100) (105/100) (u 0) (by norm_num) hu0.1 hu0.2).2
  · exact (npUniform_mem (95/100) (105/100) (u 1) (by norm_num) hu1.1 hu1.2).1
  · exact (npUniform_mem (95/100) (105/100) (u 1) (by norm_num) hu1.1 hu1.2).2
  · simp only [create_chenda_membranes, ← hvkey, ← hekey, hdb1v, hdb1e]
  · rw [db_update_lookup_ne _ _ _ _ hne, db_update_lookup_self, hdb1v]; rfl

/-- C10 witness: building two chendas with high/medium tension keys from
the initial preset database compounds the tension mutation on the shared
cow_high and cow_medium preset objects. -/
theorem create_chenda_mutates_shared_membranes_witness :
    ∃ refs db1 refs' db2,
      create_chenda_membranes MEMBRANE_DATABASE_init zeroStream "C1" "high" "medium"
        = Except.ok (refs, db1) ∧
      refs.membrane_valam_ref = "cow_" ++ "high" ∧
      refs.membrane_edamthala_ref = "cow_" ++ "medium" ∧
      db1.lookup ("cow_" ++ "high") = some ⟨"cow_leather", 32/10,
        (85/100) * npUniform (95/100) (105/100) (zeroStream 0), 6, 3/10⟩ ∧
      db1.lookup ("cow_" ++ "medium") = some ⟨"cow_leather", 35/10,
        (65/100) * npUniform (95/100) (105/100) (zeroStream 1), 12, 3/10⟩ ∧
      95/100 ≤ npUniform (95/100) (105/100) (zeroStream 0) ∧
      npUniform (95/100) (105/100) (zeroStream 0) ≤ 105/100 ∧
      95/100 ≤ npUniform (95/100) (105/100) (zeroStream 1) ∧
      npUniform (95/100) (105/100) (zeroStream 1) ≤ 105/100 ∧
      create_chenda_membranes db1 zeroStream "C2" "high" "medium" = Except.ok (refs', db2) ∧
      refs'.membrane_valam_ref = refs.membrane_valam_ref ∧
      db2.lookup ("cow_" ++ "high") = some ⟨"cow_leather", 32/10,
        (85/100) * npUniform (95/100) (105/100) (zeroStream 0)
          * npUniform (95/100) (105/100) (zeroStream 0), 6, 3/10⟩ :=
  create_chenda_mutates_shared_membranes MEMBRANE_DATABASE_init zeroStream zeroStream
    "C1" "C2" "high" "medium" ⟨"cow_leather", 32/10, 85/100, 6, 3/10⟩
    ⟨"cow_leather", 35/10, 65/100, 12, 3/10⟩ rfl rfl (by decide)
    (by simp [zeroStream]) (by simp [zeroStream])

theorem npUniform_zero (a b : ℚ) : npUniform a b 0 = a := by
  simp [npUniform]

/-- C7 counterexample: at the all-zero draw stream on jackwood with the
default 10 percent variation, the source perturbs the speed of sound by
the quarter-range factor 0.975 (giving 3705), while the claim's reading
(full range for every field except elasticity) gives the full-range
factor 0.9 (giving 3420). -/
theorem wood_variant_speed_range_counterexample :
    (get_random_wood_variant zeroStream "jackwood" (1/10)).toOption.map
      WoodProperties.speed_of_sound = some 3705 ∧
    (get_random_wood_variant_claim zeroStream "jackwood" (1/10)).toOption.map
      WoodProperties.speed_of_sound = some 3420 ∧
    (3705 : ℚ) ≠ 3420 := by
  refine ⟨?_, ?_, by norm_num⟩ <;>
    · simp only [get_random_wood_variant, get_random_wood_variant_claim, WOOD_DATABASE,
        npUniform, zeroStream, List.lookup]
      norm_num
      simp [Except.toOption]

/-- C7 (amended): get_random_wood_variant returns a new WoodProperties in
which density, damping and hardness are multiplied by independent uniform
factors within 1 plus-minus variation, the elasticity modulus by a factor
within half that range, and the speed of sound by a factor within a
quarter of that range; the default variation is 10 percent. -/
theorem wood_variant_factor_ranges (u : ℕ → ℚ) (base_wood : String) (variation : ℚ)
    (base : WoodProperties)
    (hfound : WOOD_DATABASE.lookup base_wood = some base)
    (hu : ∀ i, 0 ≤ u i ∧ u i ≤ 1) (hv : 0 ≤ variation) :
    (∃ f1 f2 f3 f4 f5 : ℚ,
      get_random_wood_variant u base_wood variation = Except.ok
        ⟨base.name ++ " (Variant)", base.density * f1, base.youngs_modulus * f2,
         base.damping_coefficient * f3, base.speed_of_sound * f4, base.hardness * f5⟩ ∧
      1 - variation ≤ f1 ∧ f1 ≤ 1 + variation ∧
      1 - variation/2 ≤ f2 ∧ f2 ≤ 1 + variation/2 ∧
      1 - variation ≤ f3 ∧ f3 ≤ 1 + variation ∧
      1 - variation/4 ≤ f4 ∧ f4 ≤ 1 + variation/4 ∧
      1 - variation ≤ f5 ∧ f5 ≤ 1 + variation) ∧
    get_random_wood_variant_default u base_wood = get_random_wood_variant u base_wood (1/10) := by
  constructor
  · refine ⟨npUniform (1 - variation) (1 + variation) (u 0),
           npUniform (1 - variation/2) (1 + variation/2) (u 1),
           npUniform (1 - variation) (1 + variation) (u 2),
           npUniform (1 - variation/4) (1 + variation/4) (u 3),
           npUniform (1 - variation) (1 + variation) (u 4), ?_, ?_, ?_, ?_, ?_, ?_, ?_, ?_, ?_, ?_, ?_⟩
    · simp only [get_random_wood_variant, hfound]
    · exact (npUniform_mem _ _ _ (by linarith) (hu 0).1 (hu 0).2).1
    · exact (npUniform_mem _ _ _ (by linarith) (hu 0).1 (hu 0).2).2
    · exact (npUniform_mem _ _ _ (by linarith) (hu 1).1 (hu 1).2).1
    · exact (npUniform_mem _ _ _ (by linarith) (hu 1).1 (hu 1).2).2
    · exact (npUniform_mem _ _ _ (by linarith) (hu 2).1 (hu 2).2).1
    · exact (npUniform_mem _ _ _ (by linarith) (hu 2).1 (hu 2).2).2
    · exact (npUniform_mem _ _ _ (by linarith) (hu 3).1 (hu 3).2).1
    · exact (npUniform_mem _ _ _ (by linarith) (hu 3).1 (hu 3).2).2
    · exact (npUniform_mem _ _ _ (by linarith) (hu 4).1 (hu 4).2).1
    · exact (npUniform_mem _ _ _ (by linarith) (hu 4).1 (hu 4).2).2
  · rfl

/-- C7 witness: the factor ranges at the all-zero draw stream on jackwood
with the default 10 percent variation. -/
theorem wood_variant_factor_ranges_witness :
    (∃ f1 f2 f3 f4 f5 : ℚ,
      get_random_wood_variant zeroStream "jackwood" (1/10) = Except.ok
        ⟨"Jackwood (Varikka)" ++ " (Variant)", 720 * f1, (98/10) * f2,
         (15/100) * f3, 3800 * f4, 65 * f5⟩ ∧
      1 - 1/10 ≤ f1 ∧ f1 ≤ 1 + 1/10 ∧
      1 - (1/10)/2 ≤ f2 ∧ f2 ≤ 1 + (1/10)/2 ∧
      1 - 1/10 ≤ f3 ∧ f3 ≤ 1 + 1/10 ∧
      1 - (1/10)/4 ≤ f4 ∧ f4 ≤ 1 + (1/10)/4 ∧
      1 - 1/10 ≤ f5 ∧ f5 ≤ 1 + 1/10) ∧
    get_random_wood_variant_default zeroStream "jackwood"
      = get_random_wood_variant zeroStream "jackwood" (1/10) :=
  wood_variant_factor_ranges zeroStream "jackwood" (1/10)
    ⟨"Jackwood (Varikka)", 720, 98/10, 15/100, 3800, 65⟩ rfl
    (fun i => by simp [zeroStream]) (by norm_num)

/-! ### Spectral engine lemmas for C1 and C8 -/

theorem pyInt_nonneg_eq_floor (q : ℚ) (h : 0 ≤ q) : pyInt q = ⌊q⌋ := by
  simp [pyInt, h]

theorem pyInt_round_close (q : ℚ) (h : 0 ≤ q) : |pyInt q - round q| ≤ 1 := by
  rw [pyInt_nonneg_eq_floor q h, round_eq]
  have h1 : ⌊q⌋ ≤ ⌊q + 1/2⌋ := Int.floor_le_floor (by linarith)
  have h2 : ⌊q + 1/2⌋ ≤ ⌊q⌋ + 1 := by
    have hq : q < (⌊q⌋ : ℚ) + 1 := Int.lt_floor_add_one q
    have hlt : ⌊q + 1/2⌋ < ⌊q⌋ + 2 := Int.floor_lt.mpr (by push_cast; linarith)
    omega
  rw [abs_le]
  omega

theorem overtone_contrib_aux_length (M : MathFns) (a d tm om dc ts : ℚ) :
    ∀ (fuel tIdx : ℕ), (overtone_contrib_aux M a d tm om dc ts fuel tIdx).length = fuel := by
  intro fuel
  induction fuel with
  | zero => intro tIdx; rfl
  | succ n ih =>
    intro tIdx
    rw [overtone_contrib_aux]
    split
    · simp
    · simp [ih]

theorem overtone_contrib_length (M : MathFns) (p : ℚ × ℚ × ℚ) (ns : ℕ) (ts : ℚ) :
    (overtone_contrib M p ns ts).length = ns := by
  rw [overtone_contrib]
  split
  · simp
  · simp [overtone_contrib_aux_length]

theorem synth_fold_length (M : MathFns) (ovs : List (ℚ × ℚ × ℚ)) (ns : ℕ) (ts : ℚ) :
    (ovs.foldl (fun acc p => List.zipWith (· + ·) acc (overtone_contrib M p ns ts))
      (List.replicate ns (0 : ℚ))).length = ns := by
  have := foldl_invariant (fun l : List ℚ => l.length = ns)
    (fun acc p => List.zipWith (· + ·) acc (overtone_contrib M p ns ts)) ovs
    (List.replicate ns (0 : ℚ)) (by simp)
    (fun b a hb => by simp [List.length_zipWith, hb, overtone_contrib_length])
  exact this

theorem synthesize_additive_err (M : MathFns) (ovs : List (ℚ × ℚ × ℚ)) (duration sampleRate velocity : ℚ)
    (h : pyInt (duration * sampleRate) < 0) :
    synthesize_additive M ovs duration sampleRate velocity
      = Except.error "negative dimensions are not allowed" := by
  simp [synthesize_additive, h]

theorem synthesize_additive_ok (M : MathFns) (ovs : List (ℚ × ℚ × ℚ)) (duration sampleRate velocity : ℚ)
    (h : 0 ≤ pyInt (duration * sampleRate)) :
    ∃ l, synthesize_additive M ovs duration sampleRate velocity = Except.ok l ∧
      l.length = (pyInt (duration * sampleRate)).toNat := by
  rw [synthesize_additive]
  rw [if_neg (by omega)]
  refine ⟨_, rfl, ?_⟩
  split
  · simp [synth_fold_length]
  · simp [synth_fold_length]

theorem fix_size_length (l : List ℚ) (t : ℕ) : (fix_size l t).length = t := by
  rw [fix_size]
  split
  · rename_i h; simp; omega
  · split
    · rename_i h; simp; omega
    · rename_i h1 h2; omega

theorem shift_layer_length (l : List ℚ) (off : ℚ) (t : ℕ) (h : l.length = t) :
    (shift_layer l off t).length = t := by
  simp only [shift_layer]
  split
  · split
    · simp; omega
    · exact h
  · split
    · split
      · simp; omega
      · exact h
    · exact h

theorem gs_layer_ok (M : MathFns) (db : List (String × DBEntry)) (g : ℕ → ℚ) (c : ℕ → ℕ)
    (category : String) (velocity duration : ℚ) (i : ℕ)
    (h : 0 ≤ pyInt (duration * 44100)) :
    ∃ l, gs_layer M db g c category velocity duration i = Except.ok l ∧
      l.length = (pyInt (duration * 44100)).toNat := by
  rw [gs_layer]
  obtain ⟨layer, hlayer, hlen⟩ := synthesize_additive_ok M _ duration 44100 _ h
  rw [hlayer]
  exact ⟨_, rfl, shift_layer_length _ _ _ (fix_size_length _ _)⟩

theorem gs_layer_err (M : MathFns) (db : List (String × DBEntry)) (g : ℕ → ℚ) (c : ℕ → ℕ)
    (category : String) (velocity duration : ℚ) (i : ℕ)
    (h : pyInt (duration * 44100) < 0) :
    gs_layer M db g c category velocity duration i
      = Except.error "negative dimensions are not allowed" := by
  rw [gs_layer, synthesize_additive_err _ _ _ _ _ h]

theorem gs_mix_length (layers : List (List ℚ)) (base : List ℚ) (t : ℕ) (h : base.length = t) :
    (gs_mix layers base t).length = t := by
  exact foldl_invariant (fun l : List ℚ => l.length = t) _ layers base h
    (fun b a hb => by
      dsimp only
      split
      · rename_i hl; simp [List.length_zipWith, hb, hl]
      · exact hb)

/-- C1 (amended): whenever the requested buffer holds at least one sample
(int(d*44100) at least 1, in particular any d of at least one sample
period), get_sound returns a buffer of exactly int(d*44100) samples,
within one sample of round(d*44100), whose peak absolute amplitude is at
most the velocity, for every database (known or unknown category, with or
without variants), math instantiation and draw stream. -/
theorem get_sound_size_and_peak (M : MathFns) (db : List (String × DBEntry)) (g : ℕ → ℚ)
    (c : ℕ → ℕ) (cat : String) (v d : ℚ) (hv : 0 ≤ v) (hd : 1 ≤ pyInt (d * 44100)) :
    ∃ out, get_sound M db g c cat v d = Except.ok out ∧
      out.length = (pyInt (d * 44100)).toNat ∧
      (∀ x ∈ out, |x| ≤ v) ∧
      |pyInt (d * 44100) - round (d * 44100)| ≤ 1 := by
  have ht0 : (0:ℤ) ≤ pyInt (d * 44100) := le_trans (by norm_num) hd
  have hq0 : 0 ≤ d * 44100 := by
    by_contra hneg
    push_neg at hneg
    have hle : pyInt (d*44100) ≤ 0 := by
      rw [pyInt, if_neg (not_le.mpr hneg)]
      have : 0 ≤ ⌊-(d*44100)⌋ := Int.floor_nonneg.mpr (by linarith)
      omega
    omega
  have hround := pyInt_round_close (d * 44100) hq0
  rw [get_sound]
  by_cases hemp : (gs_candidates db cat).isEmpty
  · rw [if_pos hemp, npZeros, if_neg (by omega)]
    refine ⟨_, rfl, by simp, ?_, hround⟩
    intro x hx
    rw [List.eq_of_mem_replicate hx]
    simpa using hv
  · rw [if_neg hemp]
    obtain ⟨l0, h0, hl0⟩ := gs_layer_ok M db g c cat v d 0 ht0
    obtain ⟨l1, h1, hl1⟩ := gs_layer_ok M db g c cat v d 1 ht0
    obtain ⟨l2, h2, hl2⟩ := gs_layer_ok M db g c cat v d 2 ht0
    obtain ⟨l3, h3, hl3⟩ := gs_layer_ok M db g c cat v d 3 ht0
    rw [h0, h1, h2, h3]
    dsimp only
    rw [npZeros, if_neg (by omega)]
    dsimp only
    have henslen : (gs_mix [l0, l1, l2, l3]
        (List.replicate (pyInt (d*44100)).toNat 0) (pyInt (d*44100)).toNat).length
        = (pyInt (d*44100)).toNat := gs_mix_length _ _ _ (by simp)
    set ens := gs_mix [l0, l1, l2, l3]
        (List.replicate (pyInt (d*44100)).toNat 0) (pyInt (d*44100)).toNat with hens
    have hnemp : ens.isEmpty = false := by
      have : ens.length ≠ 0 := by rw [henslen]; omega
      cases hceq : ens.isEmpty
      · rfl
      · exact absurd (by simpa [List.isEmpty_iff] using hceq) (by
          intro hh
          exact this (by simp [hh]))
    rw [npMaxAbs, if_neg (by simp [hnemp])]
    dsimp only
    by_cases hA : 0 < ens.foldl (fun m x => max m |x|) 0
    · rw [if_pos hA]
      refine ⟨_, rfl, by simp [henslen], ?_, hround⟩
      intro x hx
      rw [List.mem_map] at hx
      obtain ⟨y, hy, rfl⟩ := hx
      have hyA : |y| ≤ ens.foldl (fun m x => max m |x|) 0 := foldl_max_abs_mem ens 0 y hy
      have hdiv : |y| / ens.foldl (fun m x => max m |x|) 0 ≤ 1 := (div_le_one hA).mpr hyA
      calc |y / ens.foldl (fun m x => max m |x|) 0 * v|
          = |y| / ens.foldl (fun m x => max m |x|) 0 * v := by
            rw [abs_mul, abs_div, abs_of_nonneg hv, abs_of_pos hA]
        _ ≤ 1 * v := mul_le_mul_of_nonneg_right hdiv hv
        _ = v := one_mul v
    · rw [if_neg hA]
      refine ⟨_, rfl, henslen, ?_, hround⟩
      intro x hx
      have hle := foldl_max_abs_mem ens 0 x hx
      have : |x| ≤ 0 := le_trans hle (not_lt.mp hA)
      exact le_trans this hv

theorem get_sound_target_zero_err (M : MathFns) (db : List (String × DBEntry)) (g : ℕ → ℚ)
    (c : ℕ → ℕ) (cat : String) (v d : ℚ)
    (hne : (gs_candidates db cat).isEmpty = false) (h0 : pyInt (d * 44100) = 0) :
    get_sound M db g c cat v d = Except.error "zero-size array to reduction operation" := by
  rw [get_sound, if_neg (by simp [hne])]
  obtain ⟨l0, h0e, hl0⟩ := gs_layer_ok M db g c cat v d 0 (by omega)
  obtain ⟨l1, h1e, hl1⟩ := gs_layer_ok M db g c cat v d 1 (by omega)
  obtain ⟨l2, h2e, hl2⟩ := gs_layer_ok M db g c cat v d 2 (by omega)
  obtain ⟨l3, h3e, hl3⟩ := gs_layer_ok M db g c cat v d 3 (by omega)
  rw [h0e, h1e, h2e, h3e]
  dsimp only
  rw [npZeros, if_neg (by omega)]
  dsimp only
  have hens : (gs_mix [l0, l1, l2, l3]
      (List.replicate (pyInt (d*44100)).toNat 0) (pyInt (d*44100)).toNat) = [] := by
    have hL := gs_mix_length [l0, l1, l2, l3]
      (List.replicate (pyInt (d*44100)).toNat 0) (pyInt (d*44100)).toNat (by simp)
    exact List.eq_nil_of_length_eq_zero (by rw [hL, h0]; rfl)
  rw [hens, npMaxAbs]
  rfl

/-- C1 counterexample: for a category that does have variants and the
positive duration 1e-5 (below one sample period), get_sound raises the
empty-reduction ValueError from np.max instead of returning a buffer, so
the claim fails for some d greater than 0. -/
theorem get_sound_tiny_duration_raises :
    get_sound M0 dbTHAAM zeroStream zeroChoice "THAAM" 1 (1/100000)
      = Except.error "zero-size array to reduction operation" := by
  apply get_sound_target_zero_err
  · rfl
  · rw [pyInt, if_pos (by norm_num), Int.floor_eq_zero_iff]
    simp only [Set.mem_Ico]
    constructor <;> norm_num

/-- C1 witness: at duration one second and velocity one, get_sound
returns 44100 samples with peak at most one. -/
theorem get_sound_size_and_peak_witness :
    ∃ out, get_sound M0 [] zeroStream zeroChoice "THAAM" 1 1 = Except.ok out ∧
      out.length = (pyInt ((1:ℚ) * 44100)).toNat ∧
      (∀ x ∈ out, |x| ≤ 1) ∧
      |pyInt ((1:ℚ) * 44100) - round ((1:ℚ) * 44100)| ≤ 1 :=
  get_sound_size_and_peak M0 [] zeroStream zeroChoice "THAAM" 1 1 (by norm_num)
    (by rw [pyInt, if_pos (by norm_num)]; norm_num)

/-- C8 (amended): get_sound succeeds exactly when the requested size is
representable: with no variants for the category any int(d*44100) at
least 0 works and yields the correctly-sized all-zero buffer, while with
variants present the call needs int(d*44100) at least 1 (at size 0 the
empty np.max reduction raises, and a negative size raises in np.zeros),
so strictly negative durations of a sample period or more raise instead
of returning zero-length output. -/
theorem get_sound_totality_characterization (M : MathFns) (db : List (String × DBEntry))
    (g : ℕ → ℚ) (c : ℕ → ℕ) (cat : String) (v d : ℚ) :
    ((∃ out, get_sound M db g c cat v d = Except.ok out) ↔
      (if (gs_candidates db cat).isEmpty = true then 0 ≤ pyInt (d * 44100)
       else 1 ≤ pyInt (d * 44100))) ∧
    ((gs_candidates db cat).isEmpty = true → 0 ≤ pyInt (d * 44100) →
      get_sound M db g c cat v d = Except.ok (List.replicate (pyInt (d * 44100)).toNat 0)) := by
  constructor
  · by_cases hemp : (gs_candidates db cat).isEmpty
    · rw [if_pos hemp, get_sound, if_pos hemp, npZeros]
      constructor
      · intro hout
        by_contra hneg
        rw [if_pos (by omega)] at hout
        exact absurd hout.choose_spec (by simp)
      · intro hge
        rw [if_neg (by omega)]
        exact ⟨_, rfl⟩
    · rw [if_neg hemp]
      rcases lt_trichotomy (pyInt (d * 44100)) 0 with hneg | hzero | hpos
      · constructor
        · intro hout
          rw [get_sound, if_neg hemp, gs_layer_err M db g c cat v d 0 hneg] at hout
          exact absurd hout.choose_spec (by simp)
        · intro hge; omega
      · constructor
        · intro hout
          rw [get_sound_target_zero_err M db g c cat v d (by simpa using hemp) hzero] at hout
          exact absurd hout.choose_spec (by simp)
        · intro hge; omega
      · constructor
        · intro _; omega
        · intro _
          rw [get_sound, if_neg hemp]
          obtain ⟨l0, h0e, hl0⟩ := gs_layer_ok M db g c cat v d 0 (by omega)
          obtain ⟨l1, h1e, hl1⟩ := gs_layer_ok M db g c cat v d 1 (by omega)
          obtain ⟨l2, h2e, hl2⟩ := gs_layer_ok M db g c cat v d 2 (by omega)
          obtain ⟨l3, h3e, hl3⟩ := gs_layer_ok M db g c cat v d 3 (by omega)
          rw [h0e, h1e, h2e, h3e]
          dsimp only
          rw [npZeros, if_neg (by omega)]
          dsimp only
          have hlen := gs_mix_length [l0, l1, l2, l3]
            (List.replicate (pyInt (d*44100)).toNat 0) (pyInt (d*44100)).toNat (by simp)
          rw [npMaxAbs, if_neg (by
            cases hceq : (gs_mix [l0, l1, l2, l3]
                (List.replicate (pyInt (d*44100)).toNat 0) (pyInt (d*44100)).toNat).isEmpty
            · simp
            · have : (gs_mix [l0, l1, l2, l3]
                  (List.replicate (pyInt (d*44100)).toNat 0) (pyInt (d*44100)).toNat).length = 0 := by
                simp [List.isEmpty_iff.mp hceq]
              omega)]
          dsimp only
          split <;> exact ⟨_, rfl⟩
  · intro hemp hge
    rw [get_sound, if_pos hemp, npZeros, if_neg (by omega)]

/-- C8 counterexample: at duration -1 second (an unknown category, so the
unconditional zero-buffer path), get_sound raises np.zeros' ValueError on
the negative size instead of returning zero-length output. -/
theorem get_sound_negative_duration_raises :
    get_sound M0 [] zeroStream zeroChoice "THAAM" 1 (-1)
      = Except.error "negative dimensions are not allowed" := by
  rw [get_sound,
    if_pos (show (gs_candidates ([] : List (String × DBEntry)) "THAAM").isEmpty = true from rfl),
    npZeros, if_pos ?_]
  rw [pyInt, if_neg (by norm_num)]
  have : ⌊-((-1:ℚ) * 44100)⌋ = 44100 := by norm_num
  omega

/-- C8 witness: at duration one second and an unknown category, get_sound
returns the 44100-sample zero buffer. -/
theorem get_sound_totality_characterization_witness :
    get_sound M0 [] zeroStream zeroChoice "THAAM" 1 1
      = Except.ok (List.replicate (pyInt ((1:ℚ) * 44100)).toNat 0) :=
  (get_sound_totality_characterization M0 [] zeroStream zeroChoice "THAAM" 1 1).2 rfl
    (by rw [pyInt, if_pos (by norm_num)]; positivity)

/-! ### NaN propagation lemmas for C9 -/

theorem F_smul_nan (q : ℚ) : F.smul q F.nan = F.nan := rfl

theorem F_add_nan_left (x : F) : F.add F.nan x = F.nan := by cases x <;> rfl

theorem sosfilt1_head_nan (b0 b1 a1 : ℚ) (xs : List F) (z : F) :
    (sosfilt1 b0 b1 a1 (F.nan :: xs) z).head? = some F.nan := by
  simp [sosfilt1, F_smul_nan, F_add_nan_left]

theorem blend_head_nan (blend : ℚ) (s f : List F) (hs : s.head? = some F.nan)
    (hf : f.head? = some F.nan) :
    (List.zipWith (fun s f => F.add (F.smul (1 - blend) s) (F.smul blend f)) s f).head?
      = some F.nan := by
  cases s with
  | nil => simp at hs
  | cons x t =>
    cases f with
    | nil => simp at hf
    | cons y u =>
      simp only [List.head?_cons, Option.some.injEq] at hs hf
      subst hs; subst hf
      simp [F_smul_nan, F_add_nan_left]

theorem wood_character_head_nan (bc : ℚ → Bool → ℚ × ℚ × ℚ) (brightness : ℚ) (s : List F)
    (h : s.head? = some F.nan) :
    (apply_wood_character bc s brightness).head? = some F.nan := by
  cases s with
  | nil => simp at h
  | cons x t =>
    simp only [List.head?_cons, Option.some.injEq] at h
    subst h
    rw [apply_wood_character]
    split
    · exact blend_head_nan _ _ _ rfl (sosfilt1_head_nan _ _ _ _ _)
    · split
      · exact blend_head_nan _ _ _ rfl (sosfilt1_head_nan _ _ _ _ _)
      · rfl

theorem contact_point_head_nan (bc : ℚ → Bool → ℚ × ℚ × ℚ) (cp : ℚ) (s : List F)
    (h : s.head? = some F.nan) :
    (apply_contact_point_filtering bc s cp).head? = some F.nan := by
  cases s with
  | nil => simp at h
  | cons x t =>
    simp only [List.head?_cons, Option.some.injEq] at h
    subst h
    rw [apply_contact_point_filtering]
    split
    · exact blend_head_nan _ _ _ rfl (sosfilt1_head_nan _ _ _ _ _)
    · exact blend_head_nan _ _ _ rfl (sosfilt1_head_nan _ _ _ _ _)

theorem interp_at_zero_nan (y : List F) (hy : y.head? = some F.nan) (hn : 10 ≤ y.length) :
    interp_at y 0 = F.nan := by
  cases y with
  | nil => simp at hy
  | cons a t =>
    simp only [List.head?_cons, Option.some.injEq] at hy
    subst hy
    rw [interp_at]
    rw [if_neg (by
      push_neg
      constructor
      · norm_num
      · simp only [List.length_cons] at hn ⊢
        have : (9:ℚ) ≤ (t.length : ℚ) := by exact_mod_cast by omega
        push_cast
        linarith)]
    rw [if_neg (by
      simp only [List.length_cons] at hn ⊢
      push_neg
      have : (9:ℚ) ≤ (t.length : ℚ) := by exact_mod_cast by omega
      push_cast
      linarith)]
    simp [F_add_nan_left]

theorem take_head_ge_one (n : ℕ) (s : List F) (hn : 1 ≤ n) : (s.take n).head? = s.head? := by
  cases s with
  | nil => simp
  | cons x t =>
    cases n with
    | zero => omega
    | succ m => rfl

theorem pitch_bend_head_nan (s : List F) (a d : ℚ) (h : s.head? = some F.nan) :
    (apply_pitch_bend s a d).head? = some F.nan := by
  simp only [apply_pitch_bend]
  split
  · exact h
  · rename_i hbs
    push_neg at hbs
    split
    · rename_i hguard
      have hr : List.range (min (pyInt (d * 44100)).toNat s.length)
          = 0 :: List.map Nat.succ (List.range (min (pyInt (d * 44100)).toNat s.length - 1)) := by
        rw [← List.range_succ_eq_map]
        congr 1
        omega
      rw [hr]
      show (interp_at _ (((0:ℕ):ℚ) * _) :: _).head? = _
      simp only [List.head?_cons, Option.some.injEq]
      rw [show ((0:ℕ):ℚ) * (1 / (1 - a * (1/2))) = 0 by push_cast; ring]
      apply interp_at_zero_nan
      · rw [take_head_ge_one _ _ (by omega)]
        exact h
      · rw [List.length_take]
        omega
    · exact h

/-- C9 (amended): the mixer's material post-processing never replaces a
NaN buffer with silence: for every Butterworth design, strike profile,
wood brightness and contact point, a buffer whose first sample is NaN
leaves the pitch-bend, wood-character and contact-point chain with its
first sample still NaN, so NaN propagates out of the chain (the only NaN
silencing in the repository lives in the studio FX board, outside these
stages). -/
theorem material_effects_nan_propagates (bc : ℚ → Bool → ℚ × ℚ × ℚ) (resp : StrikeResponse)
    (brightness cp : ℚ) (s : List F) (h : s.head? = some F.nan) :
    (apply_material_effects bc s resp brightness cp).head? = some F.nan := by
  simp only [apply_material_effects]
  apply contact_point_head_nan
  apply wood_character_head_nan
  split
  · exact pitch_bend_head_nan s _ _ h
  · exact h

/-- C9 witness: the one-sample NaN buffer keeps its NaN through the chain
at neutral brightness and contact point with no pitch bend. -/
theorem material_effects_nan_propagates_witness :
    (apply_material_effects butterC0 [F.nan] ⟨0, 0⟩ (1/2) (1/2)).head? = some F.nan :=
  material_effects_nan_propagates butterC0 ⟨0, 0⟩ (1/2) (1/2) [F.nan] rfl

/-- C9 counterexample: the one-sample NaN buffer comes out of the
post-processing chain exactly as NaN, not silenced, at a concrete
neutral-path strike profile. -/
theorem material_effects_nan_counterexample :
    apply_material_effects butterC0 [F.nan] ⟨0, 0⟩ (1/2) (1/2) = [F.nan] ∧
    F.nan ≠ F.num 0 := by
  constructor
  · simp only [apply_material_effects]
    rw [if_neg (by norm_num)]
    rw [apply_wood_character, if_neg (by norm_num), if_neg (by norm_num)]
    rw [apply_contact_point_filtering, if_neg (by norm_num)]
    simp [sosfilt1, butterC0, F.smul, F.add]
  · intro hcon
    cases hcon

/-! ### Mastering lemmas for C6 -/

theorem peakAbs_le_init (l : List ℝ) : ∀ a : ℝ, a ≤ l.foldl (fun m x => max m |x|) a := by
  induction l with
  | nil => intro a; exact le_refl a
  | cons x xs ih => intro a; exact le_trans (le_max_left a |x|) (ih (max a |x|))

theorem peakAbs_mem (l : List ℝ) :
    ∀ (a x : ℝ), x ∈ l → |x| ≤ l.foldl (fun m y => max m |y|) a := by
  induction l with
  | nil => intro a x hx; cases hx
  | cons y ys ih =>
    intro a x hx
    rcases List.mem_cons.mp hx with h | h
    · subst h; exact le_trans (le_max_right a |x|) (peakAbs_le_init ys _)
    · exact ih _ x h

theorem peakAbs_zero_all_zero (l : List ℝ) (h : l.foldl (fun m x => max m |x|) 0 ≤ 0) :
    ∀ x ∈ l, x = 0 := by
  intro x hx
  have := peakAbs_mem l 0 x hx
  have : |x| ≤ 0 := le_trans this h
  exact abs_nonpos_iff.mp this

theorem map_tanh_drive_of_all_zero (l : List ℝ) (drive : ℝ) (h : ∀ x ∈ l, x = 0) :
    l.map (fun x => Real.tanh (x * drive)) = l := by
  have : l.map (fun x => Real.tanh (x * drive)) = l.map id := by
    apply List.map_congr_left
    intro x hx
    rw [h x hx]
    simp [Real.tanh_zero]
  rw [this, List.map_id]

theorem tanh_lt_tanh_of_lt (a b : ℝ) (h : a < b) : Real.tanh a < Real.tanh b := by
  rw [Real.tanh_eq_sinh_div_cosh, Real.tanh_eq_sinh_div_cosh,
    div_lt_div_iff₀ (Real.cosh_pos a) (Real.cosh_pos b)]
  have hs : Real.sinh (a - b) < 0 := Real.sinh_neg_iff.mpr (by linarith)
  rw [Real.sinh_sub] at hs
  linarith

theorem tanh_le_098_of_exp (x : ℝ) (h : Real.exp x * Real.exp x ≤ 99) :
    Real.tanh x ≤ 98/100 := by
  rw [Real.tanh_eq_sinh_div_cosh, div_le_iff₀ (Real.cosh_pos x), Real.sinh_eq, Real.cosh_eq]
  have h1 : (0:ℝ) < Real.exp x := Real.exp_pos x
  have h2 : (0:ℝ) < Real.exp (-x) := Real.exp_pos (-x)
  have h3 : Real.exp x * Real.exp (-x) = 1 := by
    rw [← Real.exp_add]; simp
  nlinarith

theorem exp_sq_le_99_of_le_one (x : ℝ) (hx : x ≤ 1) : Real.exp x * Real.exp x ≤ 99 := by
  have h1 : Real.exp x ≤ Real.exp 1 := Real.exp_le_exp.mpr hx
  have h2 : Real.exp 1 < 2.7182818286 := Real.exp_one_lt_d9
  have h0 : (0:ℝ) < Real.exp x := Real.exp_pos x
  nlinarith

theorem tanh_pos_of_pos (x : ℝ) (h : 0 < x) : 0 < Real.tanh x := by
  rw [Real.tanh_eq_sinh_div_cosh]
  exact div_pos (Real.sinh_pos_iff.mpr h) (Real.cosh_pos x)

/-- C6 (amended): the stereo mastering stage applies tanh(bus*drive) with
drive 1.5 exactly when the pre-saturation peak is below 0.5 and 1.0
otherwise, then peak-normalizes to 0.98 only when the post-saturation
peak exceeds it; the mono path instead applies the fixed drive 1.2
(followed by the same conditional normalization). -/
theorem mastering_stage_formula :
    (∀ mixL mixR : List ℝ, master_stereo mixL mixR = master_stereo_claim mixL mixR) ∧
    (∀ mix : List ℝ, master_mono mix = master_mono_amended mix) := by
  constructor
  · intro mixL mixR
    simp only [master_stereo, master_stereo_claim]
    by_cases hpos : 0 < max (peakAbs mixL) (peakAbs mixR)
    · rw [if_pos hpos]
    · rw [if_neg hpos]
      push_neg at hpos
      have hL : ∀ x ∈ mixL, x = 0 := peakAbs_zero_all_zero mixL (le_trans (le_max_left _ _) hpos)
      have hR : ∀ x ∈ mixR, x = 0 := peakAbs_zero_all_zero mixR (le_trans (le_max_right _ _) hpos)
      rw [map_tanh_drive_of_all_zero mixL _ hL, map_tanh_drive_of_all_zero mixR _ hR,
        if_neg (by push_neg; exact le_trans hpos (by norm_num))]
  · intro mix
    simp only [master_mono, master_mono_amended]
    by_cases hpos : 0 < peakAbs mix
    · rw [if_pos hpos]
    · rw [if_neg hpos]
      push_neg at hpos
      have hM : ∀ x ∈ mix, x = 0 := peakAbs_zero_all_zero mix hpos
      rw [map_tanh_drive_of_all_zero mix _ hM, if_neg (by push_neg; exact le_trans hpos (by norm_num))]

theorem peakAbs_singleton (t : ℝ) : peakAbs [t] = |t| := by
  simp [peakAbs]

/-- C6 counterexample: on the one-sample mono bus 0.4 (pre-saturation
peak below 0.5), the code outputs tanh(0.4*1.2) while the claimed
conditional drive predicts tanh(0.4*1.5); the two differ since tanh is
strictly monotone, so the mono path does not follow the claimed formula. -/
theorem mastering_mono_drive_counterexample :
    master_mono [2/5] ≠ master_mono_claim [2/5] := by
  have h48 : ((2:ℝ)/5) * (12/10) = 12/25 := by norm_num
  have h60 : ((2:ℝ)/5) * (3/2) = 3/5 := by norm_num
  have hb48 : Real.tanh (((2:ℝ)/5) * (12/10)) ≤ 98/100 := by
    rw [h48]; exact tanh_le_098_of_exp _ (exp_sq_le_99_of_le_one _ (by norm_num))
  have hb60 : Real.tanh (((2:ℝ)/5) * (3/2)) ≤ 98/100 := by
    rw [h60]; exact tanh_le_098_of_exp _ (exp_sq_le_99_of_le_one _ (by norm_num))
  have hp48 : 0 < Real.tanh (((2:ℝ)/5) * (12/10)) := by
    rw [h48]; exact tanh_pos_of_pos _ (by norm_num)
  have hp60 : 0 < Real.tanh (((2:ℝ)/5) * (3/2)) := by
    rw [h60]; exact tanh_pos_of_pos _ (by norm_num)
  have hpeak : peakAbs [(2:ℝ)/5] = 2/5 := by
    rw [peakAbs_singleton, abs_of_pos (by norm_num)]
  have hcode : master_mono [2/5] = [Real.tanh (((2:ℝ)/5) * (12/10))] := by
    simp only [master_mono, List.map_cons, List.map_nil, hpeak]
    rw [if_pos (by norm_num), if_neg (by
      rw [peakAbs_singleton, abs_of_pos hp48]
      push_neg
      exact hb48)]
  have hclaim : master_mono_claim [2/5] = [Real.tanh (((2:ℝ)/5) * (3/2))] := by
    simp only [master_mono_claim, hpeak]
    rw [if_pos (show (2:ℝ)/5 < 1/2 by norm_num)]
    simp only [List.map_cons, List.map_nil]
    rw [if_neg (by
      rw [peakAbs_singleton, abs_of_pos hp60]
      push_neg
      exact hb60)]
  rw [hcode, hclaim]
  intro heq
  have := List.head_eq_of_cons_eq heq
  have hlt : Real.tanh (((2:ℝ)/5) * (12/10)) < Real.tanh (((2:ℝ)/5) * (3/2)) := by
    apply tanh_lt_tanh_of_lt
    norm_num
  exact absurd this (ne_of_lt hlt)

/-! ### REST-invariant lemmas for C2 -/

theorem assign_event_category (event : StrokeEvent) (player : Player) (z1 z2 u3 : ℚ) :
    (assign_event_to_player event player z1 z2 u3).sound_category = event.sound_category := rfl

theorem assign_event_core (event : StrokeEvent) (player : Player) (z1 z2 u3 : ℚ) :
    event_core (assign_event_to_player event player z1 z2 u3) = event_core event := rfl

theorem dict_append_pred (P : StrokeEvent → Prop) (d : List (String × List StrokeEvent))
    (key : String) (e : StrokeEvent)
    (hd : ∀ kv ∈ d, ∀ x ∈ kv.2, P x) (he : P e) :
    ∀ kv ∈ dict_append d key e, ∀ x ∈ kv.2, P x := by
  intro kv hkv x hx
  simp only [dict_append, List.mem_map] at hkv
  obtain ⟨kv0, hkv0, hkveq⟩ := hkv
  by_cases hk : kv0.1 = key
  · rw [if_pos hk] at hkveq
    subst hkveq
    simp only [List.mem_append, List.mem_singleton] at hx
    rcases hx with hx | hx
    · exact hd kv0 hkv0 x hx
    · subst hx; exact he
  · rw [if_neg hk] at hkveq
    subst hkveq
    exact hd kv0 hkv0 x hx

theorem add_cymbal_rest_free (g : ℕ → ℚ) (time : ℚ) (cymbals : List Player)
    (cym : List (String × List StrokeEvent)) (k : ℕ) (hd : rest_free_dict cym) :
    rest_free_dict (add_cymbal_events g time cymbals cym k).1 := by
  rw [add_cymbal_events]
  exact foldl_invariant (fun st : List (String × List StrokeEvent) × ℕ => rest_free_dict st.1)
    _ cymbals (cym, k) hd
    (fun b a hb => dict_append_pred _ b.1 a.id _ hb (by simp))

theorem init_dict_rest_free (ps : List Player) :
    rest_free_dict (ps.map (fun p => (p.id, ([] : List StrokeEvent)))) := by
  intro kv hkv e he
  simp only [List.mem_map] at hkv
  obtain ⟨p, _, rfl⟩ := hkv
  simp at he

theorem empty_wind_rest_free : rest_free_dict ([] : List (String × List StrokeEvent)) := by
  intro kv hkv
  simp at hkv

theorem rest_free_of_all_nil (d : List (String × List StrokeEvent))
    (h : ∀ kv ∈ d, kv.2 = []) : rest_free_dict d := by
  intro kv hkv e he
  rw [h kv hkv] at he
  cases he

theorem init_three_rest_free (lead rhythm accent : Player) :
    rest_free_dict [(lead.id, ([] : List StrokeEvent)), (rhythm.id, []), (accent.id, [])] := by
  apply rest_free_of_all_nil
  intro kv hkv
  rcases List.mem_cons.mp hkv with h | h
  · rw [h]
  rcases List.mem_cons.mp h with h2 | h2
  · rw [h2]
  rcases List.mem_cons.mp h2 with h3 | h3
  · rw [h3]
  · cases h3

theorem init_map_rest_free (ps : List Player) :
    rest_free_dict (ps.map (fun p => (p.id, ([] : List StrokeEvent)))) := by
  apply rest_free_of_all_nil
  intro kv hkv
  simp only [List.mem_map] at hkv
  obtain ⟨p, _, rfl⟩ := hkv
  rfl

theorem traditional_rest_free (g : ℕ → ℚ) (ens : Ensemble) (events : List StrokeEvent)
    (pat : OrchestrationPattern) (hok : orchestrate_traditional g ens events = Except.ok pat) :
    rest_free_dict pat.chenda_events ∧ rest_free_dict pat.cymbal_events ∧
      rest_free_dict pat.wind_events := by
  rw [orchestrate_traditional] at hok
  rcases hl : (ens.get_players_by_role PlayerRole.chenda_lead).head? with _ | lead <;> rw [hl] at hok
  · simp at hok
  rcases hr : (ens.get_players_by_role PlayerRole.chenda_rhythm).head? with _ | rhythm <;> rw [hr] at hok
  · simp at hok
  rcases ha : (ens.get_players_by_role PlayerRole.chenda_accent).head? with _ | accent <;> rw [ha] at hok
  · simp at hok
  simp only [Except.ok.injEq] at hok
  subst hok
  apply foldl_invariant (fun st : OrchestrationPattern × ℕ × ℕ =>
    rest_free_dict st.1.chenda_events ∧ rest_free_dict st.1.cymbal_events ∧
      rest_free_dict st.1.wind_events)
  · exact ⟨init_three_rest_free lead rhythm accent, init_map_rest_free _, rest_free_of_all_nil _ (by intro kv hkv; cases hkv)⟩
  · intro b a hb
    dsimp only
    by_cases hrest : a.sound_category = "REST"
    · rw [if_pos hrest]; exact hb
    · rw [if_neg hrest]
      have hch : rest_free_dict (dict_append b.1.chenda_events
          (select_player_traditional a b.2.2 (analyze_pattern_complexity events)
            lead rhythm accent).id
          (assign_event_to_player a
            (select_player_traditional a b.2.2 (analyze_pattern_complexity events)
              lead rhythm accent) (g b.2.1) (g (b.2.1+1)) (g (b.2.1+2)))) :=
        dict_append_pred _ _ _ _ hb.1 (by rw [assign_event_category]; exact hrest)
      by_cases hsb : is_structural_beat b.2.2 events.length
      · rw [if_pos hsb]
        exact ⟨hch, add_cymbal_rest_free _ _ _ _ _ hb.2.1, hb.2.2⟩
      · rw [if_neg hsb]
        exact ⟨hch, hb.2.1, hb.2.2⟩

theorem except_map_ok {α β ε : Type} (f : α → β) (x : Except ε α) (b : β)
    (h : x.map f = Except.ok b) : ∃ a, x = Except.ok a ∧ f a = b := by
  cases x with
  | error e => simp [Except.map] at h
  | ok a => exact ⟨a, rfl, by simpa [Except.map] using h⟩

theorem dynamic_rest_free (g : ℕ → ℚ) (ens : Ensemble) (events : List StrokeEvent)
    (pat : OrchestrationPattern) (hok : orchestrate_dynamic g ens events = Except.ok pat) :
    rest_free_dict pat.chenda_events ∧ rest_free_dict pat.cymbal_events ∧
      rest_free_dict pat.wind_events := by
  rw [orchestrate_dynamic] at hok
  obtain ⟨q, hq, hq2⟩ := except_map_ok _ _ _ hok
  subst hq2
  refine foldl_invariant (fun st : Except String (OrchestrationPattern × ℕ × ℕ) =>
    ∀ q', st = Except.ok q' → rest_free_dict q'.1.chenda_events ∧
      rest_free_dict q'.1.cymbal_events ∧ rest_free_dict q'.1.wind_events)
    _ events _ ?_ ?_ q hq
  · intro q' hq'
    simp only [Except.ok.injEq] at hq'
    subst hq'
    exact ⟨init_map_rest_free _, init_map_rest_free _, rest_free_of_all_nil _ (by intro kv hkv; cases hkv)⟩
  · intro b a hb
    dsimp only
    cases b with
    | error e => intro q' hq'; cases hq'
    | ok st =>
      obtain ⟨pat0, k, i⟩ := st
      dsimp only
      have hb0 := hb (pat0, k, i) rfl
      by_cases hrest : a.sound_category = "REST"
      · rw [if_pos hrest]
        intro q' hq'
        simp only [Except.ok.injEq] at hq'
        subst hq'
        exact hb0
      · rw [if_neg hrest]
        rcases hsel : select_player_by_load ens ens.get_chenda_players pat0.chenda_events with _ | player
        · simp only [hsel]
          intro q' hq'
          cases hq'
        · simp only [hsel]
          have hch : rest_free_dict (dict_append pat0.chenda_events player.id
              (assign_event_to_player a player (g k) (g (k+1)) (g (k+2)))) :=
            dict_append_pred _ _ _ _ hb0.1 (by rw [assign_event_category]; exact hrest)
          by_cases hi : i % 8 = 0
          · rw [if_pos hi]
            intro q' hq'
            simp only [Except.ok.injEq] at hq'
            subst hq'
            exact ⟨hch, add_cymbal_rest_free _ _ _ _ _ hb0.2.1, hb0.2.2⟩
          · rw [if_neg hi]
            intro q' hq'
            simp only [Except.ok.injEq] at hq'
            subst hq'
            exact ⟨hch, hb0.2.1, hb0.2.2⟩

theorem antiphonal_rest_free (g : ℕ → ℚ) (ens : Ensemble) (events : List StrokeEvent)
    (pat : OrchestrationPattern) (hok : orchestrate_antiphonal g ens events = Except.ok pat) :
    rest_free_dict pat.chenda_events ∧ rest_free_dict pat.cymbal_events ∧
      rest_free_dict pat.wind_events := by
  rw [orchestrate_antiphonal] at hok
  rcases hl : (ens.get_players_by_role PlayerRole.chenda_lead).head? with _ | lead <;> rw [hl] at hok
  · simp at hok
  rcases hr : (ens.get_players_by_role PlayerRole.chenda_rhythm).head? with _ | rhythm <;> rw [hr] at hok
  · simp at hok
  rcases ha : (ens.get_players_by_role PlayerRole.chenda_accent).head? with _ | accent <;> rw [ha] at hok
  · simp at hok
  simp only [Except.ok.injEq] at hok
  subst hok
  apply foldl_invariant (fun st : OrchestrationPattern × ℕ × ℕ =>
    rest_free_dict st.1.chenda_events ∧ rest_free_dict st.1.cymbal_events ∧
      rest_free_dict st.1.wind_events)
  · exact ⟨init_three_rest_free lead rhythm accent, init_map_rest_free _,
      rest_free_of_all_nil _ (by intro kv hkv; cases hkv)⟩
  · intro b a hb
    dsimp only
    by_cases hrest : a.sound_category = "REST"
    · rw [if_pos hrest]; exact hb
    · rw [if_neg hrest]
      exact ⟨dict_append_pred _ _ _ _ hb.1 (by rw [assign_event_category]; exact hrest),
        hb.2.1, hb.2.2⟩

theorem inner_fold_rest_free (g : ℕ → ℚ) (event : StrokeEvent)
    (hrest : event.sound_category ≠ "REST") (players : List Player)
    (ch : List (String × List StrokeEvent)) (k : ℕ) (hch : rest_free_dict ch) :
    rest_free_dict ((players.foldl
      (fun st2 player =>
        (dict_append st2.1 player.id
          (assign_event_to_player event player (g st2.2) (g (st2.2+1)) (g (st2.2+2))),
         st2.2 + 3))
      (ch, k)).1) := by
  apply foldl_invariant (fun st2 : List (String × List StrokeEvent) × ℕ => rest_free_dict st2.1)
  · exact hch
  · intro b a hb
    exact dict_append_pred _ _ _ _ hb (by rw [assign_event_category]; exact hrest)

theorem unison_rest_free (g : ℕ → ℚ) (ens : Ensemble) (events : List StrokeEvent)
    (pat : OrchestrationPattern) (hok : orchestrate_unison g ens events = Except.ok pat) :
    rest_free_dict pat.chenda_events ∧ rest_free_dict pat.cymbal_events ∧
      rest_free_dict pat.wind_events := by
  rw [orchestrate_unison] at hok
  simp only [Except.ok.injEq] at hok
  subst hok
  apply foldl_invariant (fun st : OrchestrationPattern × ℕ × ℕ =>
    rest_free_dict st.1.chenda_events ∧ rest_free_dict st.1.cymbal_events ∧
      rest_free_dict st.1.wind_events)
  · exact ⟨init_map_rest_free _, init_map_rest_free _,
      rest_free_of_all_nil _ (by intro kv hkv; cases hkv)⟩
  · intro b a hb
    dsimp only
    by_cases hrest : a.sound_category = "REST"
    · rw [if_pos hrest]; exact hb
    · rw [if_neg hrest]
      have hin := inner_fold_rest_free g a hrest ens.get_chenda_players
        b.1.chenda_events b.2.1 hb.1
      by_cases hsb : is_structural_beat b.2.2 events.length
      · rw [if_pos hsb]
        exact ⟨hin, add_cymbal_rest_free _ _ _ _ _ hb.2.1, hb.2.2⟩
      · rw [if_neg hsb]
        exact ⟨hin, hb.2.1, hb.2.2⟩

theorem layered_rest_free (g : ℕ → ℚ) (ens : Ensemble) (events : List StrokeEvent)
    (pat : OrchestrationPattern) (hok : orchestrate_layered g ens events = Except.ok pat) :
    rest_free_dict pat.chenda_events ∧ rest_free_dict pat.cymbal_events ∧
      rest_free_dict pat.wind_events := by
  rw [orchestrate_layered] at hok
  simp only [Except.ok.injEq] at hok
  subst hok
  apply foldl_invariant (fun st : OrchestrationPattern × ℕ × ℕ =>
    rest_free_dict st.1.chenda_events ∧ rest_free_dict st.1.cymbal_events ∧
      rest_free_dict st.1.wind_events)
  · exact ⟨init_map_rest_free _, init_map_rest_free _,
      rest_free_of_all_nil _ (by intro kv hkv; cases hkv)⟩
  · intro b a hb
    dsimp only
    by_cases hrest : a.sound_category = "REST"
    · rw [if_pos hrest]; exact hb
    · rw [if_neg hrest]
      exact ⟨inner_fold_rest_free g a hrest _ b.1.chenda_events b.2.1 hb.1, hb.2.1, hb.2.2⟩

theorem foldl_filter_skip {α β : Type} (p : α → Bool) (f : β → α → β)
    (hf : ∀ b a, p a = false → f b a = b) :
    ∀ (l : List α) (b : β), l.foldl f b = (l.filter p).foldl f b := by
  intro l
  induction l with
  | nil => intro b; rfl
  | cons x t ih =>
    intro b
    cases hp : p x
    · rw [List.foldl_cons, hf b x hp, List.filter_cons, if_neg (by simp [hp]), ih]
    · rw [List.foldl_cons, List.filter_cons, if_pos (by simp [hp]), List.foldl_cons, ih]

/-- C2: under every one of the five orchestration strategies, no event
with the REST sentinel category appears in any player's assigned list of
the resulting pattern, and the mixer's track renderer produces the same
track whether or not REST events are present (it never renders them). -/
theorem rest_never_assigned_never_rendered :
    (∀ (g : ℕ → ℚ) (ens : Ensemble) (events : List StrokeEvent)
        (strategy : OrchestrationStrategy) (pat : OrchestrationPattern),
      orchestrate_sequence g ens events strategy = Except.ok pat →
      ∀ kv ∈ pat.get_all_player_events, ∀ e ∈ kv.2, e.sound_category ≠ "REST") ∧
    (∀ (sC sY : Player → StrokeEvent → List ℝ) (p : Player) (evs : List StrokeEvent) (d : ℚ),
      render_player_track sC sY p evs d
        = render_player_track sC sY p
            (evs.filter (fun e => decide (e.sound_category ≠ "REST"))) d) := by
  constructor
  · intro g ens events strategy pat hok kv hkv e he
    have h3 : rest_free_dict pat.chenda_events ∧ rest_free_dict pat.cymbal_events ∧
        rest_free_dict pat.wind_events := by
      cases strategy with
      | traditional => exact traditional_rest_free g ens events pat hok
      | dynamic => exact dynamic_rest_free g ens events pat hok
      | antiphonal => exact antiphonal_rest_free g ens events pat hok
      | unison => exact unison_rest_free g ens events pat hok
      | layered => exact layered_rest_free g ens events pat hok
    simp only [OrchestrationPattern.get_all_player_events, List.mem_append] at hkv
    rcases hkv with (hkv | hkv) | hkv
    · exact h3.1 kv hkv e he
    · exact h3.2.1 kv hkv e he
    · exact h3.2.2 kv hkv e he
  · intro sC sY p evs d
    rw [render_player_track, render_player_track]
    apply foldl_filter_skip
    intro b a hp
    have ha : a.sound_category = "REST" := by
      by_contra hcon
      simp [hcon] at hp
    rw [if_pos ha]

/-- C2 witness: orchestrating a one-REST-event sequence under the unison
strategy on a concrete ensemble yields only REST-free assigned lists. -/
theorem rest_never_assigned_never_rendered_witness :
    ∀ kv ∈ (OrchestrationPattern.mk [("P1", []), ("P2", []), ("P3", [])] [("P4", [])]
      []).get_all_player_events, ∀ e ∈ kv.2, e.sound_category ≠ "REST" :=
  rest_never_assigned_never_rendered.1 zeroStream ensSample [evRest]
    OrchestrationStrategy.unison
    (OrchestrationPattern.mk [("P1", []), ("P2", []), ("P3", [])] [("P4", [])] []) rfl

/-! ### Unison duplication lemmas for C3 -/

theorem dict_append_lookup_self (d : List (String × List StrokeEvent)) (key : String)
    (e : StrokeEvent) :
    (dict_append d key e).lookup key = (d.lookup key).map (fun l => l ++ [e]) := by
  induction d with
  | nil => rfl
  | cons kv t ih =>
    simp only [dict_append, List.map_cons] at ih ⊢
    by_cases hk : kv.1 = key
    · rw [if_pos hk]
      have hb : (key == kv.1) = true := beq_iff_eq.mpr hk.symm
      simp [List.lookup, hb]
    · rw [if_neg hk]
      have hb : (key == kv.1) = false := beq_eq_false_iff_ne.mpr (fun hh => hk hh.symm)
      simp [List.lookup, hb, ih]

theorem dict_append_lookup_other (d : List (String × List StrokeEvent)) (key k2 : String)
    (e : StrokeEvent) (h : k2 ≠ key) :
    (dict_append d key e).lookup k2 = d.lookup k2 := by
  induction d with
  | nil => rfl
  | cons kv t ih =>
    simp only [dict_append, List.map_cons] at ih ⊢
    by_cases hk : kv.1 = key
    · rw [if_pos hk]
      have hb : (k2 == kv.1) = false := beq_eq_false_iff_ne.mpr (fun hh => h (hh.trans hk))
      simp [List.lookup, hb, ih]
    · rw [if_neg hk]
      cases hb : (k2 == kv.1) <;> simp [List.lookup, hb, ih]

theorem dict_append_lookup_isSome (d : List (String × List StrokeEvent)) (key k2 : String)
    (e : StrokeEvent) :
    ((dict_append d key e).lookup k2).isSome = (d.lookup k2).isSome := by
  by_cases h : k2 = key
  · subst h
    rw [dict_append_lookup_self]
    cases d.lookup k2 <;> rfl
  · rw [dict_append_lookup_other d key k2 e h]

theorem inner_fold_lookup_preserved (g : ℕ → ℚ) (event : StrokeEvent) (key : String) :
    ∀ (players : List Player) (ch : List (String × List StrokeEvent)) (k : ℕ),
      (∀ r ∈ players, r.id ≠ key) →
      ((players.foldl
        (fun st2 player =>
          (dict_append st2.1 player.id
            (assign_event_to_player event player (g st2.2) (g (st2.2+1)) (g (st2.2+2))),
           st2.2 + 3)) (ch, k)).1.lookup key) = ch.lookup key := by
  intro players
  induction players with
  | nil => intro ch k _; rfl
  | cons q qs ih =>
    intro ch k hne
    rw [List.foldl_cons]
    rw [ih _ _ (fun r hr => hne r (List.mem_cons_of_mem q hr))]
    exact dict_append_lookup_other _ _ _ _ (fun hh => hne q (List.mem_cons_self q qs) hh.symm)

theorem inner_fold_isSome_preserved (g : ℕ → ℚ) (event : StrokeEvent) (key : String) :
    ∀ (players : List Player) (ch : List (String × List StrokeEvent)) (k : ℕ),
      (((players.foldl
        (fun st2 player =>
          (dict_append st2.1 player.id
            (assign_event_to_player event player (g st2.2) (g (st2.2+1)) (g (st2.2+2))),
           st2.2 + 3)) (ch, k)).1.lookup key).isSome) = ((ch.lookup key).isSome) := by
  intro players
  induction players with
  | nil => intro ch k; rfl
  | cons q qs ih =>
    intro ch k
    rw [List.foldl_cons, ih, dict_append_lookup_isSome]

theorem unison_inner_lookup (g : ℕ → ℚ) (event : StrokeEvent) :
    ∀ (players : List Player) (ch : List (String × List StrokeEvent)) (k : ℕ) (p : Player),
      p ∈ players → (players.map Player.id).Nodup →
      (ch.lookup p.id).isSome = true →
      ∃ z1 z2 u3, ((players.foldl
          (fun st2 player =>
            (dict_append st2.1 player.id
              (assign_event_to_player event player (g st2.2) (g (st2.2+1)) (g (st2.2+2))),
             st2.2 + 3)) (ch, k)).1.lookup p.id)
        = some ((ch.lookup p.id).getD [] ++ [assign_event_to_player event p z1 z2 u3]) := by
  intro players
  induction players with
  | nil => intro ch k p hp; cases hp
  | cons q qs ih =>
    intro ch k p hp hnodup hsome
    rcases List.mem_cons.mp hp with hpq | hpqs
    · subst hpq
      refine ⟨g k, g (k+1), g (k+2), ?_⟩
      rw [List.foldl_cons]
      have hqs : ∀ r ∈ qs, r.id ≠ p.id := by
        intro r hr hrid
        have : p.id ∈ qs.map Player.id := hrid ▸ List.mem_map_of_mem Player.id hr
        exact (List.nodup_cons.mp hnodup).1 this
      rw [inner_fold_lookup_preserved g event p.id qs _ _ hqs]
      rw [dict_append_lookup_self]
      obtain ⟨l, hl⟩ := Option.isSome_iff_exists.mp hsome
      rw [hl]
      rfl
    · have hne : p.id ≠ q.id := by
        intro hh
        have : p.id ∈ qs.map Player.id := List.mem_map_of_mem Player.id hpqs
        exact (List.nodup_cons.mp hnodup).1 (hh ▸ this)
      rw [List.foldl_cons]
      have hsome2 : ((dict_append ch q.id
          (assign_event_to_player event q (g k) (g (k+1)) (g (k+2)))).lookup p.id).isSome = true := by
        rw [dict_append_lookup_isSome]; exact hsome
      obtain ⟨z1, z2, u3, hres⟩ := ih _ (k+3) p hpqs (List.nodup_cons.mp hnodup).2 hsome2
      refine ⟨z1, z2, u3, ?_⟩
      rw [hres, dict_append_lookup_other _ _ _ _ hne]

theorem unison_events_fold (g : ℕ → ℚ) (players cymbals : List Player) (L : ℕ)
    (hnodup : (players.map Player.id).Nodup) :
    ∀ (events : List StrokeEvent) (pat : OrchestrationPattern) (k i : ℕ),
      (∀ q ∈ players, ((pat.chenda_events).lookup q.id).isSome = true) →
      ∀ p ∈ players,
      (((events.foldl
          (fun st event =>
            let pat := st.1
            let k := st.2.1
            let i := st.2.2
            if event.sound_category = "REST" then (pat, k, i + 1)
            else
              let inner := players.foldl
                (fun st2 player =>
                  (dict_append st2.1 player.id
                    (assign_event_to_player event player (g st2.2) (g (st2.2+1)) (g (st2.2+2))),
                   st2.2 + 3))
                (pat.chenda_events, k)
              let pat1 : OrchestrationPattern := ⟨inner.1, pat.cymbal_events, pat.wind_events⟩
              if is_structural_beat i L then
                let ck := add_cymbal_events g event.time cymbals pat1.cymbal_events inner.2
                (⟨pat1.chenda_events, ck.1, pat1.wind_events⟩, ck.2, i + 1)
              else (pat1, inner.2, i + 1))
          (pat, k, i)).1.chenda_events.lookup p.id).getD []).map event_core
        = (((pat.chenda_events.lookup p.id).getD []).map event_core)
          ++ ((events.filter (fun e => decide (e.sound_category ≠ "REST"))).map event_core) := by
  intro events
  induction events with
  | nil =>
    intro pat k i hsome p hp
    simp
  | cons e t ih =>
    intro pat k i hsome p hp
    rw [List.foldl_cons]
    by_cases hrest : e.sound_category = "REST"
    · show (((t.foldl _ (if e.sound_category = "REST" then (pat, k, i + 1) else _)).1.chenda_events.lookup p.id).getD []).map event_core = _
      rw [if_pos hrest]
      rw [ih pat k (i+1) hsome p hp]
      rw [List.filter_cons, if_neg (by simp [hrest])]
    · show (((t.foldl _ (if e.sound_category = "REST" then (pat, k, i + 1) else _)).1.chenda_events.lookup p.id).getD []).map event_core = _
      rw [if_neg hrest]
      have hsome2 : ∀ q ∈ players, (((players.foldl
          (fun st2 player =>
            (dict_append st2.1 player.id
              (assign_event_to_player e player (g st2.2) (g (st2.2+1)) (g (st2.2+2))),
             st2.2 + 3)) (pat.chenda_events, k)).1.lookup q.id).isSome) = true := by
        intro q hq
        rw [inner_fold_isSome_preserved]
        exact hsome q hq
      obtain ⟨z1, z2, u3, hlook⟩ := unison_inner_lookup g e players pat.chenda_events k p hp
        hnodup (hsome p hp)
      by_cases hsb : is_structural_beat i L
      · rw [if_pos hsb]
        rw [ih _ _ _ hsome2 p hp]
        rw [hlook]
        rw [List.filter_cons, if_pos (by simp [hrest])]
        simp [event_core, List.append_assoc, assign_event_to_player]
      · rw [if_neg hsb]
        rw [ih _ _ _ hsome2 p hp]
        rw [hlook]
        rw [List.filter_cons, if_pos (by simp [hrest])]
        simp [event_core, List.append_assoc, assign_event_to_player]

theorem init_map_lookup (players : List Player) (p : Player) (hp : p ∈ players) :
    (players.map (fun q => (q.id, ([] : List StrokeEvent)))).lookup p.id = some [] := by
  induction players with
  | nil => cases hp
  | cons q qs ih =>
    by_cases hq : p.id = q.id
    · simp [List.lookup, beq_iff_eq.mpr hq]
    · rcases List.mem_cons.mp hp with h | h
      · exact absurd (by rw [h]) hq
      · simp only [List.map_cons, List.lookup, beq_eq_false_iff_ne.mpr hq]
        exact ih h

theorem inner_fold_dict_pred (P : StrokeEvent → Prop) (g : ℕ → ℚ) (event : StrokeEvent)
    (players : List Player) (ch : List (String × List StrokeEvent)) (k : ℕ)
    (hch : ∀ kv ∈ ch, ∀ x ∈ kv.2, P x)
    (he : ∀ (player : Player) (z1 z2 u3 : ℚ), P (assign_event_to_player event player z1 z2 u3)) :
    ∀ kv ∈ ((players.foldl
      (fun st2 player =>
        (dict_append st2.1 player.id
          (assign_event_to_player event player (g st2.2) (g (st2.2+1)) (g (st2.2+2))),
         st2.2 + 3)) (ch, k)).1), ∀ x ∈ kv.2, P x := by
  apply foldl_invariant
    (fun st2 : List (String × List StrokeEvent) × ℕ => ∀ kv ∈ st2.1, ∀ x ∈ kv.2, P x)
  · exact hch
  · intro b a hb
    exact dict_append_pred P b.1 a.id _ hb (he a _ _ _)

/-- C3: under the unison strategy, every chenda player's assigned list is
exactly the non-REST input events in input order (so all chenda players'
lists agree and have equal length): projecting away the per-copy resolved
data, each list equals the filtered input, and every stored copy carries
its own resolved player, velocity and contact point. -/
theorem unison_duplicates_every_event_to_all_chenda (g : ℕ → ℚ) (ens : Ensemble)
    (events : List StrokeEvent) (pat : OrchestrationPattern)
    (hnodup : (ens.get_chenda_players.map Player.id).Nodup)
    (hok : orchestrate_unison g ens events = Except.ok pat) :
    (∀ p ∈ ens.get_chenda_players,
      ((pat.chenda_events.lookup p.id).getD []).map event_core
        = (events.filter (fun e => decide (e.sound_category ≠ "REST"))).map event_core) ∧
    (∀ kv ∈ pat.chenda_events, ∀ e ∈ kv.2,
      e.assigned_player.isSome = true ∧ e.velocity.isSome = true ∧
        e.contact_point.isSome = true) := by
  rw [orchestrate_unison] at hok
  simp only [Except.ok.injEq] at hok
  subst hok
  constructor
  · intro p hp
    rw [unison_events_fold g ens.get_chenda_players ens.get_cymbal_players events.length hnodup
      events _ 0 0
      (by
        intro q hq
        show ((ens.get_chenda_players.map (fun q => (q.id, ([] : List StrokeEvent)))).lookup
          q.id).isSome = true
        rw [init_map_lookup _ q hq]
        rfl) p hp]
    rw [show (ens.get_chenda_players.map (fun q => (q.id, ([] : List StrokeEvent)))).lookup p.id
      = some [] from init_map_lookup _ p hp]
    rfl
  · apply foldl_invariant (fun st : OrchestrationPattern × ℕ × ℕ =>
      ∀ kv ∈ st.1.chenda_events, ∀ e ∈ kv.2,
        e.assigned_player.isSome = true ∧ e.velocity.isSome = true ∧
          e.contact_point.isSome = true)
    · intro kv hkv e he
      simp only [List.mem_map] at hkv
      obtain ⟨q, _, rfl⟩ := hkv
      cases he
    · intro b a hb
      dsimp only
      by_cases hrest : a.sound_category = "REST"
      · rw [if_pos hrest]; exact hb
      · rw [if_neg hrest]
        have hin := inner_fold_dict_pred
          (fun e => e.assigned_player.isSome = true ∧ e.velocity.isSome = true ∧
            e.contact_point.isSome = true) g a ens.get_chenda_players b.1.chenda_events b.2.1 hb
          (fun player z1 z2 u3 => ⟨rfl, rfl, rfl⟩)
        by_cases hsb : is_structural_beat b.2.2 events.length
        · rw [if_pos hsb]
          exact hin
        · rw [if_neg hsb]
          exact hin

/-- C3 witness: orchestrating the one-REST sequence under unison on a
concrete ensemble leaves every chenda list equal to the empty filtered
input. -/
theorem unison_duplicates_every_event_to_all_chenda_witness :
    (∀ p ∈ ensSample.get_chenda_players,
      (((OrchestrationPattern.mk [("P1", []), ("P2", []), ("P3", [])] [("P4", [])]
        []).chenda_events.lookup p.id).getD []).map event_core
        = ([evRest].filter (fun e => decide (e.sound_category ≠ "REST"))).map event_core) ∧
    (∀ kv ∈ (OrchestrationPattern.mk [("P1", []), ("P2", []), ("P3", [])] [("P4", [])]
        []).chenda_events, ∀ e ∈ kv.2,
      e.assigned_player.isSome = true ∧ e.velocity.isSome = true ∧
        e.contact_point.isSome = true) :=
  unison_duplicates_every_event_to_all_chenda zeroStream ensSample [evRest]
    (OrchestrationPattern.mk [("P1", []), ("P2", []), ("P3", [])] [("P4", [])] [])
    (by decide) rfl

/-! ### Solo logic lemmas for C5 -/

theorem restrict_all_player_events (pat : OrchestrationPattern) (pid : String) :
    (restrict_pattern pat pid).get_all_player_events
      = pat.get_all_player_events.filter (fun kv => kv.1 == pid) := by
  simp [restrict_pattern, OrchestrationPattern.get_all_player_events, List.filter_append]

theorem foldl_filter_skip_mem {α β : Type} (p : α → Bool) (f : β → α → β) :
    ∀ (l : List α), (∀ b a, a ∈ l → p a = false → f b a = b) →
      ∀ b, l.foldl f b = (l.filter p).foldl f b := by
  intro l
  induction l with
  | nil => intro _ b; rfl
  | cons x t ih =>
    intro hf b
    cases hp : p x
    · rw [List.foldl_cons, hf b x (List.mem_cons_self x t) hp, List.filter_cons,
        if_neg (by simp [hp]), ih (fun b a ha hpa => hf b a (List.mem_cons_of_mem x ha) hpa)]
    · rw [List.foldl_cons, List.filter_cons, if_pos (by simp [hp]), List.foldl_cons,
        ih (fun b a ha hpa => hf b a (List.mem_cons_of_mem x ha) hpa)]

theorem lookup_mem {l : List (String × Player)} {pid : String} {p : Player}
    (h : l.lookup pid = some p) : (pid, p) ∈ l := by
  induction l with
  | nil => cases h
  | cons kv t ih =>
    rw [List.lookup] at h
    cases hb : (pid == kv.1) with
    | true =>
      rw [hb] at h
      simp only [Option.some.injEq] at h
      have hpid : pid = kv.1 := beq_iff_eq.mp hb
      have hkv : (pid, p) = kv := by rw [hpid, ← h]
      rw [hkv]
      exact List.mem_cons_self kv t
    | false =>
      rw [hb] at h
      exact List.mem_cons_of_mem kv (ih h)

/-- C5: when exactly one listed player is soloed, rendering the full
orchestration pattern produces the same master buffer (for the same
duration, spatial flag and per-strike synthesis) as rendering the pattern
restricted to that player alone: every other player contributes nothing. -/
theorem solo_renders_like_solo_player_alone (sC sY : Player → StrokeEvent → List ℝ)
    (ens : Ensemble) (pattern : OrchestrationPattern) (duration : ℚ) (flag : Bool)
    (pid0 : String) (p0 : Player)
    (h0 : ens.get_player pid0 = some p0)
    (hs : p0.solo = true)
    (hothers : ∀ pid p, ens.get_player pid = some p → p.solo = true → pid = pid0)
    (hkeys : ∀ kv ∈ pattern.get_all_player_events, kv.2 ≠ [] →
      (ens.get_player kv.1).isSome = true)
    (hin : ∃ kv ∈ pattern.get_all_player_events, kv.1 = pid0) :
    render_ensemble sC sY ens pattern duration flag
      = render_ensemble sC sY ens (restrict_pattern pattern pid0) duration flag := by
  have hsa : solo_active ens pattern.get_all_player_events = true := by
    rw [solo_active, List.any_eq_true]
    obtain ⟨kv, hkv, hkeq⟩ := hin
    exact ⟨kv, hkv, by rw [hkeq, h0]; exact hs⟩
  have hsa2 : solo_active ens (restrict_pattern pattern pid0).get_all_player_events = true := by
    rw [restrict_all_player_events, solo_active, List.any_eq_true]
    obtain ⟨kv, hkv, hkeq⟩ := hin
    refine ⟨kv, List.mem_filter.mpr ⟨hkv, by simp [hkeq]⟩, ?_⟩
    rw [hkeq, h0]
    exact hs
  have htracks : player_tracks sC sY ens pattern.get_all_player_events true duration
      = player_tracks sC sY ens (restrict_pattern pattern pid0).get_all_player_events
          true duration := by
    rw [restrict_all_player_events, player_tracks, player_tracks]
    apply foldl_filter_skip_mem
    intro b kv hmem hpkv
    have hne : kv.1 ≠ pid0 := by simpa using hpkv
    cases b with
    | error e => rfl
    | ok lst =>
      dsimp only
      by_cases hempty : kv.2.isEmpty
      · rw [if_pos hempty]
      · rw [if_neg hempty]
        have hsome := hkeys kv hmem (by
          intro hnil
          rw [hnil] at hempty
          exact hempty rfl)
        obtain ⟨pl, hpl⟩ := Option.isSome_iff_exists.mp hsome
        rw [hpl]
        have hplsolo : pl.solo = false := by
          cases hps : pl.solo
          · rfl
          · exact absurd (hothers kv.1 pl hpl hps) hne
        simp [hplsolo]
  rw [render_ensemble, render_ensemble, hsa, hsa2, htracks]

/-- C5 witness: on the sample ensemble with only the accent player
soloed, rendering the three-player sample pattern equals rendering the
pattern restricted to the soloed player. -/
theorem solo_renders_like_solo_player_alone_witness :
    render_ensemble synthZero synthZero ensSampleSolo patSample 1 true
      = render_ensemble synthZero synthZero ensSampleSolo
          (restrict_pattern patSample "P3") 1 true :=
  solo_renders_like_solo_player_alone synthZero synthZero ensSampleSolo patSample 1 true
    "P3" pAccentSolo rfl rfl
    (fun pid p hl hsolo => by
      have hmem := lookup_mem hl
      have hall : ∀ kvp ∈ ensSampleSolo.players, kvp.2.solo = true → kvp.1 = "P3" := by decide
      exact hall (pid, p) hmem hsolo)
    (by decide) (by decide)
